import Mathlib

/-!
Verification development for the VirtualBox MCP server (TypeScript sources).

The definitions below are a shallow embedding of the repository's code:

* `src/packages/shared-utils/src/string-utils.ts` (`leven`, `closestMatch`);
* `src/packages/vagrant-client/src/index.ts` (`VagrantClient.executeCommand`,
  `executeCommandNative`, `listVMs`, `snapshotSave`/`snapshotRestore`) and the
  `killProcess` method of the client (`src/unnamed/part_001`);
* `src/packages/sync-engine/src/index.ts` (`BackgroundTaskManager`);
* `src/packages/sync-engine/src/operation-tracker.ts` (`OperationTracker`);
* `src/apps/mcp-server/src/index.ts` (`atomic_transaction_exec` tool branch).

Modelling conventions, used consistently and noted at each definition:
JavaScript numbers are modelled as `Nat`/`Int`/`ℚ` (exact rationals in place
of IEEE doubles; every use where rounding could matter is documented);
`undefined` becomes `Option`; thrown exceptions become `Except String`;
subprocess invocations are oracles passed as explicit arguments; `Date.now()`
is an explicit `Nat` millisecond argument.  String helpers are implemented
over character lists so that all definitions evaluate by kernel reduction.
-/

/-! ### JavaScript primitive semantics -/

/-- The apostrophe character (code 39), used when embedding shell quoting. -/
def aposChar : Char := Char.ofNat 39

/-- JS `x || d` for a possibly-`undefined` number `x`: `undefined` and `0`
are falsy and yield the default (also used to model `NaN || d`, with `none`
standing for `NaN`). -/
def jsOrNum (x : Option Int) (d : Int) : Int :=
  match x with
  | none => d
  | some v => if v = 0 then d else v

/-- JS `x || d` for a `Nat`-valued option (`none` and `0` falsy). -/
def jsOrNat (x : Option Nat) (d : Nat) : Nat :=
  match x with
  | none => d
  | some v => if v = 0 then d else v

/-- JS `s || d` for a string: the empty string is falsy. -/
def jsStrOr (s : String) (d : String) : String :=
  if s = "" then d else s

/-- JS `s || d` for a possibly-`undefined` string. -/
def jsOptStrOr (s : Option String) (d : String) : String :=
  match s with
  | none => d
  | some v => if v = "" then d else v

/-- JS truthiness of a possibly-`undefined` string (used for guards such as
`if (!progress.outputPath) return`). -/
def jsStrTruthy (s : Option String) : Bool :=
  match s with
  | none => false
  | some v => v != ""

/-- JS truthiness of a possibly-`undefined` number. -/
def jsNumTruthy (x : Option Int) : Bool :=
  match x with
  | none => false
  | some v => v != 0

/-- JS template interpolation of a possibly-`undefined` string
(`${undefined}` prints `undefined`). -/
def jsShowOptStr (s : Option String) : String :=
  match s with
  | none => "undefined"
  | some v => v

/-- ASCII whitespace recognised by the embedding of JS `trim`
(the VM command outputs at issue only contain these). -/
def isJSWhitespace (c : Char) : Bool := c == ' ' || c == '\t' || c == '\n' || c == '\r'

/-- JS `s.trim()`. -/
def jsTrim (s : String) : String :=
  String.mk (((s.toList.dropWhile isJSWhitespace).reverse.dropWhile isJSWhitespace).reverse)

/-- JS `s.toLowerCase()` (ASCII; the scanned keywords are ASCII). -/
def jsToLower (s : String) : String := String.mk (s.toList.map Char.toLower)

/-- JS `s.toUpperCase()` (ASCII; signal names are ASCII). -/
def jsToUpper (s : String) : String := String.mk (s.toList.map Char.toUpper)

/-- JS `s.split('\n')` on a character list: every `'\n'` separates, the
final fragment may be empty. -/
def splitLines (l : List Char) : List (List Char) :=
  match l with
  | [] => [[]]
  | c :: rest =>
    let r := splitLines rest
    if c == '\n' then [] :: r
    else
      match r with
      | [] => [[c]]
      | h :: t => (c :: h) :: t

/-- JS `s.split('\n')`. -/
def jsSplitNL (s : String) : List String := (splitLines s.toList).map String.mk

/-- Maximal leading decimal-digit prefix of a character list, as a number;
`none` when there is no leading digit.  Helper for `jsParseInt`. -/
def digitsValue (l : List Char) : Option Nat :=
  let ds := l.takeWhile Char.isDigit
  if ds.isEmpty then none
  else some (ds.foldl (fun a c => a * 10 + (c.toNat - 48)) 0)

/-- JS `parseInt(s, 10)`: skip leading whitespace, read an optional sign and
then a maximal digit prefix (trailing junk is ignored); `none` models `NaN`.
`jsTrim` stands in for the JS whitespace skip (the trailing trim is
irrelevant because trailing junk is dropped anyway). -/
def jsParseInt (s : String) : Option Int :=
  match (jsTrim s).toList with
  | '-' :: rest => (digitsValue rest).map (fun n => -(n : Int))
  | '+' :: rest => (digitsValue rest).map (fun n => (n : Int))
  | l => (digitsValue l).map (fun n => (n : Int))

/-- JS `Math.round` (round half toward positive infinity), on the exact
rational value of the argument. -/
def jsRound (q : ℚ) : ℤ := ⌊q + 1/2⌋

/-- Does `pat` occur at the head of `l`? -/
def leadMatch : List Char → List Char → Bool
  | [], _ => true
  | _ :: _, [] => false
  | a :: as, b :: bs => a == b && leadMatch as bs

/-- Does `pat` occur anywhere in `l`?  (JS `String.prototype.includes`.) -/
def hasSub (pat : List Char) : List Char → Bool
  | [] => leadMatch pat []
  | c :: rest => leadMatch pat (c :: rest) || hasSub pat rest

/-- JS `s.includes(pat)`. -/
def strContains (s pat : String) : Bool := hasSub pat.toList s.toList

/-- The last `n` elements of a list (semantics of the guest-side
`tail -n`). -/
def lastN (n : Nat) (l : List α) : List α := l.drop (l.length - n)

/-! ### `shared-utils/src/string-utils.ts` -/

/-- Length of the common prefix of two character lists (the prefix/suffix
trimming loops of `leven`). -/
def commonLen : List Char → List Char → Nat
  | a :: as, b :: bs => if a == b then commonLen as bs + 1 else 0
  | _, _ => 0

/-- Inner `for (index ...)` loop of `leven`: one row of the rolling-array
Levenshtein computation.  Returns the updated array together with the final
`result` value.  `temporary` holds the running diagonal value. -/
def levenRow (b : Char) : List Char → List Nat → Nat → Nat → List Nat × Nat
  | [], _, _, result => ([], result)
  | _ :: _, [], _, result => ([], result)
  | c :: cs, a :: as, temporary, result =>
    let temporary2 := if b == c then temporary else temporary + 1
    let newVal :=
      if a > result then (if temporary2 > result then result + 1 else temporary2)
      else (if temporary2 > a then a + 1 else temporary2)
    let rest := levenRow b cs as a newVal
    (newVal :: rest.1, rest.2)

/-- Outer `while (index2 ...)` loop of `leven`. -/
def levenOuter (cache : List Char) : List Char → List Nat → Nat → Nat → Nat
  | [], _, _, result => result
  | b :: bs, arr, index2, _ =>
    let row := levenRow b cache arr index2 (index2 + 1)
    levenOuter cache bs row.1 (index2 + 1) row.2

/-- `leven` from `string-utils.ts` (first version, lines 5-66): the optimized
Levenshtein distance adapted from the `leven` npm package, with common
prefix/suffix trimming and a rolling one-dimensional array.  JS
`charCodeAt` comparisons become `Char` equality (the source only compares
code units, which coincides with `Char` equality on the ASCII VM names at
issue). -/
def leven (a b : String) : Nat :=
  if a = b then 0
  else
    let first := if a.length > b.length then b.toList else a.toList
    let second := if a.length > b.length then a.toList else b.toList
    let suffixLen := commonLen first.reverse second.reverse
    let firstLength := first.length - suffixLen
    let secondLength := second.length - suffixLen
    let start := commonLen (first.take firstLength) (second.take secondLength)
    let firstSeg := (first.take firstLength).drop start
    let secondSeg := (second.take secondLength).drop start
    if firstSeg.length = 0 then secondLength - start
    else
      let arr := (List.range firstSeg.length).map (· + 1)
      levenOuter firstSeg secondSeg arr 0 0

/-- The scanning loop of `closestMatch`: running best candidate and its
distance (`none` models `minDistance = Infinity` before any candidate). -/
def closestScan (target : String) (candidates : List String) :
    Option (String × Nat) :=
  candidates.foldl
    (fun acc candidate =>
      let distance := leven target candidate
      match acc with
      | none => some (candidate, distance)
      | some best => if distance < best.2 then some (candidate, distance) else acc)
    none

/-- `closestMatch` from `string-utils.ts` (first version, lines 71-91).  The
final guard models the JS float test
`minDistance > 3 && minDistance > target.length * 0.4`; for natural
`minDistance` and `target.length` below 2^50 the double computation
`target.length * 0.4` agrees with the exact comparison
`10 * minDistance > 4 * target.length` (at the only candidate disagreement
points, integer multiples of 2/5, both comparisons are false), so the guard
is embedded with exact integers. -/
def closestMatch (target : String) (candidates : List String) : Option String :=
  if candidates.isEmpty then none
  else
    match closestScan target candidates with
    | none => none
    | some best =>
      if best.2 > 3 ∧ 10 * best.2 > 4 * target.length then none
      else some best.1

example : leven "webserver" "web-server" = 1 := by decide
example : closestMatch "webserver" ["web-server"] = some "web-server" := by decide
example : closestMatch "zzz" ["alphabetical"] = none := by decide
example : jsParseInt "  1234abc" = some 1234 := by decide
example : jsParseInt "-7" = some (-7) := by decide
example : jsParseInt "x2" = none := by decide
example : strContains "some Error: x" "error" = false := by decide
example : strContains "some error: x" "error" = true := by decide
example : lastN 2 ["a", "b", "c"] = ["b", "c"] := by decide
example : jsSplitNL "a\nb" = ["a", "b"] := by decide

/-! ### `vagrant-client/src/index.ts` (second version, lines 246-1114) -/

/-- `VMStatus` from the Zod enum. -/
inductive VMStatus where
  | running | poweroff | aborted | saved | not_created | unknown
deriving DecidableEq, Repr

/-- The literal state string of a `VMStatus` (for error-message
interpolation). -/
def VMStatus.str : VMStatus → String
  | .running => "running"
  | .poweroff => "poweroff"
  | .aborted => "aborted"
  | .saved => "saved"
  | .not_created => "not_created"
  | .unknown => "unknown"

/-- Which control plane manages a listed VM (`managedBy` in the source). -/
inductive ManagedBy where
  | vagrant | native
deriving DecidableEq, Repr

/-- A row parsed from `vagrant global-status --prune` by
`getGlobalVagrantVMs`. -/
structure GlobalVM where
  id : String
  name : String
  state : VMStatus
  directory : String
deriving DecidableEq, Repr

/-- A value of the `vmsMap` built by `listVMs` (the state field is always
`unknown` in the `includeStatus: false` calls embedded here). -/
structure VMEntry where
  name : String
  managedBy : ManagedBy
deriving DecidableEq, Repr

/-- Outcome of one `execa` subprocess invocation.  A `failure` carries the
fields of the thrown error object, each possibly `undefined`; `timedOut` is
set by execa when the configured timeout killed the process. -/
inductive ExecaOutcome where
  | success (stdout stderr : String) (exitCode : Int)
  | failure (stdout stderr : Option String) (exitCode : Option Int) (timedOut : Bool)
deriving DecidableEq, Repr

/-- The `Command Result` shape returned by `executeCommand` paths. -/
structure CommandResult where
  stdout : String
  stderr : String
  exitCode : Int
  timedOut : Bool
deriving DecidableEq, Repr

/-- Options of `executeCommand` (`timeout`, `username`, `password`). -/
structure ExecOpts where
  timeout : Option Nat := none
  username : Option String := none
  password : Option String := none
deriving DecidableEq, Repr

/-- The world one `VagrantClient` call runs against: the managed `vmsDir`
directory listing, the parsed global-status table, the hypervisor's VM list,
whether a `VBoxManage` binary probe succeeds, per-VM status, and the
`execa` outcome of each possible subprocess invocation. -/
structure VagrantEnv where
  /-- Names with a working directory under `vmsDir` (`fs.existsSync`). -/
  localVMs : List String
  /-- Successfully parsed rows of `vagrant global-status --prune`
  (a thrown listing error is modelled by the empty list, as in the source's
  `catch { return [] }`). -/
  globalVMs : List GlobalVM
  /-- Names printed by `VBoxManage list vms`. -/
  nativeVMs : List String
  /-- Whether `getVBoxManage` finds a working binary. -/
  vboxOk : Bool
  /-- `getVMStatus` result per VM name. -/
  vmStatus : String → VMStatus
  /-- Outcome of `execa('vagrant', ['ssh', '-c', command], { cwd, timeout })`. -/
  sshLocal : ExecaOutcome
  /-- Outcome of `execa('vagrant', ['ssh', id, '-c', command], { timeout })`. -/
  sshGlobal : ExecaOutcome
  /-- Outcome of `execa(vbox, ['guestcontrol', ...])`. -/
  guest : ExecaOutcome

/-- JS `Map.prototype.set` on an insertion-ordered association list:
update in place when the key exists, append otherwise. -/
def mapSet (m : List (String × VMEntry)) (k : String) (v : VMEntry) :
    List (String × VMEntry) :=
  if m.any (fun e => e.1 == k) then
    m.map (fun e => if e.1 == k then (k, v) else e)
  else m ++ [(k, v)]

/-- `listVMs({ includeStatus: false })`: the values of the `vmsMap` built
from (1) directories in the managed `vmsDir`, (2) `VBoxManage list vms`
names not already present, (3) global-status rows not already present
(also keyed by id when the id is truthy).  The state field is omitted here
because every embedded call passes `includeStatus: false`. -/
def listVMsEntries (env : VagrantEnv) : List VMEntry :=
  let m0 := env.localVMs.foldl (fun m n => mapSet m n ⟨n, .vagrant⟩) []
  let m1 :=
    if env.vboxOk then
      env.nativeVMs.foldl
        (fun m n => if m.any (fun e => e.1 == n) then m else mapSet m n ⟨n, .native⟩) m0
    else m0
  let m2 :=
    env.globalVMs.foldl
      (fun m v =>
        if m.any (fun e => e.1 == v.name) then m
        else
          let m' := mapSet m v.name ⟨v.name, .vagrant⟩
          if v.id != "" then mapSet m' v.id ⟨v.name, .vagrant⟩ else m') m1
  m2.map (fun e => e.2)

/-- `listVMsSync`: directory names under the managed `vmsDir`. -/
def listVMsSync (env : VagrantEnv) : List String := env.localVMs

/-- The global-status row matched by the executeCommand global branch:
`globalVMs.find(v => v.name === name || v.id === name)`. -/
def findGlobalVM (env : VagrantEnv) (name : String) : Option GlobalVM :=
  env.globalVMs.find? (fun v => v.name == name || v.id == name)

/-- Local-path result handling of `executeCommand`: `execa('vagrant',
['ssh', '-c', command], { cwd: vmDir, timeout })` with the timeout branch
returning the sentinel exit code 124 and the non-timeout error branch
returning `error.exitCode || 1`. -/
def sshLocalResult (outcome : ExecaOutcome) : CommandResult :=
  match outcome with
  | .success out err code => ⟨out, err, code, false⟩
  | .failure out err code timedOut =>
    if timedOut then ⟨jsOptStrOr out "", jsOptStrOr err "", 124, true⟩
    else ⟨jsOptStrOr out "", jsOptStrOr err "", jsOrNum code 1, false⟩

/-- Global-path result handling of `executeCommand`: note that the timeout
branch returns empty stdout/stderr (`{ stdout: '', stderr: '', exitCode:
124, timedOut: true }`). -/
def sshGlobalResult (outcome : ExecaOutcome) : CommandResult :=
  match outcome with
  | .success out err code => ⟨out, err, code, false⟩
  | .failure out err code timedOut =>
    if timedOut then ⟨"", "", 124, true⟩
    else ⟨jsOptStrOr out "", jsOptStrOr err "", jsOrNum code 1, false⟩

/-- `executeCommandNative`: requires a `VBoxManage` binary and a running VM,
then runs `guestcontrol ... run --exe /bin/sh ... -- -c command`.  The catch
branch returns `exitCode: error.exitCode || 1, timedOut: !!error.timedOut`
(the `VBOX_E_IPRT_ERROR` hint only rewrites `error.message`, which the
returned object does not use, so it is omitted). -/
def executeCommandNative (env : VagrantEnv) (name command : String)
    (opts : ExecOpts) : Except String CommandResult :=
  if ¬env.vboxOk then
    .error "VBoxManage not found. Please ensure VirtualBox is installed and in your PATH."
  else if env.vmStatus name ≠ .running then
    .error s!"Cannot execute command: VM \x27{name}\x27 is in state \x27{(env.vmStatus name).str}\x27 (must be \x27running\x27)"
  else
    match env.guest with
    | .success out err code => .ok ⟨out, err, code, false⟩
    | .failure out err code timedOut =>
      .ok ⟨jsOptStrOr out "", jsOptStrOr err "", jsOrNum code 1, timedOut⟩

/-- The not-found error message of `executeCommand`, with the
`closestMatch` suggestion drawn from the locally known VM names
(an empty-string candidate is falsy in JS and suppresses the suffix). -/
def notFoundMsg (env : VagrantEnv) (name : String) : String :=
  let candidate := closestMatch name (listVMsSync env)
  let suggestion :=
    match candidate with
    | some c => if c = "" then "" else s!". Did you mean \x27{c}\x27?"
    | none => ""
  s!"VM {name} not found{suggestion}"

/-- `VagrantClient.executeCommand` (second version, lines 471-541): if the
name has a managed working directory, run `vagrant ssh -c` there; otherwise
try the global-status registry by name or id, then a native VirtualBox VM
of that name (via `listVMs`), and finally fail with a closest-match
suggestion.  The command string, the timeout default
(`options.timeout !== undefined ? options.timeout : 300000`) and the
credentials only parameterize the subprocess invocations whose outcomes
the environment supplies, so they do not appear in the result beyond
that. -/
def executeCommand (env : VagrantEnv) (name command : String) (opts : ExecOpts) :
    Except String CommandResult :=
  if name ∈ env.localVMs then .ok (sshLocalResult env.sshLocal)
  else
    match findGlobalVM env name with
    | some _ => .ok (sshGlobalResult env.sshGlobal)
    | none =>
      if ((listVMsEntries env).find? (fun v => v.name == name && v.managedBy == .native)).isSome then
        executeCommandNative env name command opts
      else .error (notFoundMsg env name)

/-- The three backends a VM name can resolve to. -/
inductive Backend where
  | localManaged | globalDeclarative | nativeHypervisor
deriving DecidableEq, Repr

/-- The dispatch decision taken by `executeCommand`, extracted as a
resolution function: managed working directory first, then the global
registry (by name or id), then the hypervisor's VM list. -/
def resolveBackend (env : VagrantEnv) (name : String) : Option Backend :=
  if name ∈ env.localVMs then some .localManaged
  else
    match findGlobalVM env name with
    | some _ => some .globalDeclarative
    | none =>
      if ((listVMsEntries env).find? (fun v => v.name == name && v.managedBy == .native)).isSome then
        some .nativeHypervisor
      else none

/-- Snapshot-name sanitization used by the snapshot tools:
`snapshotName.replace(/[^a-zA-Z0-9_-]/g, '_')`. -/
def sanitizeSnapshotName (s : String) : String :=
  String.mk (s.toList.map (fun c => if c.isAlphanum || c == '_' || c == '-' then c else '_'))

/-! ### `sync-engine/src/index.ts`: `BackgroundTaskManager` (lines 229-707) -/

/-- `TaskStatus`. -/
inductive TaskStatus where
  | running | completed | failed | unknown
deriving DecidableEq, Repr

/-- Credentials forwarded to the Vagrant client. -/
structure VMCredentials where
  username : Option String := none
  password : Option String := none
deriving DecidableEq, Repr

/-- `TaskInfo`: one entry of the Background Task Registry. -/
structure TaskInfo where
  taskId : String
  vmName : String
  pid : Int
  command : String
  logFile : String
  stderrFile : String
  startedAt : Nat
  status : TaskStatus
  workingDir : String
  exitCode : Option Int := none
  lastCheckedAt : Option Nat := none
  credentials : Option VMCredentials := none
deriving DecidableEq, Repr

/-- `TaskRegistrationResult`. -/
structure TaskRegistrationResult where
  taskId : String
  pid : Int
  logFile : String
  stderrFile : String
deriving DecidableEq, Repr

/-- The two in-memory maps of the `BackgroundTaskManager`: the primary
id-keyed task map and the secondary VM-name index. -/
structure TaskRegistry where
  tasks : List (String × TaskInfo)
  tasksByVM : List (String × List String)
deriving DecidableEq, Repr

/-- Empty registry (fresh `BackgroundTaskManager`). -/
def TaskRegistry.empty : TaskRegistry := ⟨[], []⟩

/-- JS `Map.prototype.get`. -/
def taskLookup (reg : TaskRegistry) (taskId : String) : Option TaskInfo :=
  (reg.tasks.find? (fun e => e.1 == taskId)).map (fun e => e.2)

/-- JS `Map.prototype.set` on the task map. -/
def taskMapSet (m : List (String × TaskInfo)) (k : String) (v : TaskInfo) :
    List (String × TaskInfo) :=
  if m.any (fun e => e.1 == k) then
    m.map (fun e => if e.1 == k then (k, v) else e)
  else m ++ [(k, v)]

/-- Registering a task id under its VM name:
`if (!tasksByVM.has(vmName)) set(vmName, new Set()); get(vmName).add(id)`. -/
def vmIndexAdd (m : List (String × List String)) (vmName taskId : String) :
    List (String × List String) :=
  if m.any (fun e => e.1 == vmName) then
    m.map (fun e => if e.1 == vmName then (e.1, e.2 ++ [taskId]) else e)
  else m ++ [(vmName, [taskId])]

/-- JS `s.replace(/'/g, "'\\''")` — the POSIX single-quote escaping applied
before wrapping a command in `nohup sh -c '...'`. -/
def escapeSQ (s : String) : String :=
  String.join (s.toList.map (fun c =>
    if c == aposChar then "\x27\\\x27\x27" else String.mk [c]))

/-- The wrapped detachable command built by `registerTask`:
`cd "<dir>" && nohup sh -c '<escaped>' > "<out>" 2> "<err>" & && echo $!`
(joined with `' && '` exactly as in the source). -/
def taskWrappedCommand (command workingDir logFile stderrFile : String) : String :=
  String.intercalate " && "
    [s!"cd \"{workingDir}\"",
     s!"nohup sh -c \x27{escapeSQ command}\x27 > \"{logFile}\" 2> \"{stderrFile}\" &",
     "echo $!"]

/-- `BackgroundTaskManager.registerTask` (lines 357-425).  `randomUUID()`
and `Date.now()` become the explicit `taskId`/`now` arguments; the
synchronous dispatch through `vagrant.executeCommand` becomes the `exec`
oracle (which may itself throw).  Returns the post-call registry together
with the result or thrown error.  The pid is parsed from the last line of
stdout; a non-zero wrapper exit or a non-positive/unparsable pid is a hard
error raised before any registry mutation. -/
def registerTask (reg : TaskRegistry) (vmName command : String)
    (workingDir : String) (credentials : Option VMCredentials)
    (taskId : String) (now : Nat)
    (exec : String → Except String CommandResult) :
    TaskRegistry × Except String TaskRegistrationResult :=
  let logFile := s!"/tmp/mcp_task_{taskId}_stdout.log"
  let stderrFile := s!"/tmp/mcp_task_{taskId}_stderr.log"
  let wrappedCommand := taskWrappedCommand command workingDir logFile stderrFile
  match exec wrappedCommand with
  | .error e => (reg, .error e)
  | .ok result =>
    if result.exitCode ≠ 0 then
      let errText := jsStrOr result.stderr "Unknown error"
      (reg, .error s!"Failed to start background task: {errText}")
    else
      let pidStr := (jsSplitNL (jsTrim result.stdout)).getLast?.map jsTrim
      let pid := jsParseInt (jsOptStrOr pidStr "0")
      match pid with
      | none =>
        (reg, .error s!"Failed to get valid PID for background task. Got: {jsShowOptStr pidStr}")
      | some p =>
        if p ≤ 0 then
          (reg, .error s!"Failed to get valid PID for background task. Got: {jsShowOptStr pidStr}")
        else
          let taskInfo : TaskInfo :=
            { taskId := taskId, vmName := vmName, pid := p, command := command,
              logFile := logFile, stderrFile := stderrFile, startedAt := now,
              status := .running, workingDir := workingDir, exitCode := none,
              lastCheckedAt := some now, credentials := credentials }
          (⟨taskMapSet reg.tasks taskId taskInfo, vmIndexAdd reg.tasksByVM vmName taskId⟩,
           .ok ⟨taskId, p, logFile, stderrFile⟩)

/-- `BackgroundTaskManager.updateTaskStatus` (lines 534-581): liveness probe
via `kill -0`, then a best-effort `wait <pid>; echo $?` exit-code recovery;
a thrown probe lands in the catch branch setting status `unknown`.  Returns
the post-call registry, the issued guest commands (in order) and the thrown
error if the task id is unknown. -/
def updateTaskStatus (reg : TaskRegistry) (taskId : String) (now : Nat)
    (exec : String → Except String CommandResult) :
    TaskRegistry × List String × Except String Unit :=
  match taskLookup reg taskId with
  | none => (reg, [], .error s!"Task {taskId} not found")
  | some task =>
    if task.status = .completed ∨ task.status = .failed then (reg, [], .ok ())
    else
      let checkCmd := s!"kill -0 {task.pid} 2>/dev/null && echo \"RUNNING\" || echo \"STOPPED\""
      match exec checkCmd with
      | .error _ =>
        (⟨taskMapSet reg.tasks taskId { task with status := .unknown, lastCheckedAt := some now },
          reg.tasksByVM⟩, [checkCmd], .ok ())
      | .ok checkResult =>
        let isRunning := jsTrim checkResult.stdout == "RUNNING"
        if isRunning then
          (⟨taskMapSet reg.tasks taskId { task with status := .running, lastCheckedAt := some now },
            reg.tasksByVM⟩, [checkCmd], .ok ())
        else
          let waitCmd := s!"wait {task.pid} 2>/dev/null; echo $?"
          match exec waitCmd with
          | .error _ =>
            (⟨taskMapSet reg.tasks taskId { task with status := .unknown, lastCheckedAt := some now },
              reg.tasksByVM⟩, [checkCmd, waitCmd], .ok ())
          | .ok exitCodeResult =>
            let exitCode := jsParseInt (jsTrim exitCodeResult.stdout)
            let status : TaskStatus := if exitCode = some 0 then .completed else .failed
            (⟨taskMapSet reg.tasks taskId
                { task with exitCode := exitCode, status := status, lastCheckedAt := some now },
              reg.tasksByVM⟩, [checkCmd, waitCmd], .ok ())

/-- `BackgroundTaskManager.killTask` (lines 590-625): for a running task the
signal is interpolated into a remote `kill -<signal> <pid>` invocation with
no validation; on a `KILLED` acknowledgement the status is refreshed.
Returns the post-call registry, the issued guest commands (in order) and
the boolean result (or the registry-miss error). -/
def killTask (reg : TaskRegistry) (taskId signal : String) (now : Nat)
    (exec : String → Except String CommandResult) :
    TaskRegistry × List String × Except String Bool :=
  match taskLookup reg taskId with
  | none => (reg, [], .error s!"Task {taskId} not found")
  | some task =>
    if task.status ≠ .running then (reg, [], .ok false)
    else
      let killCmd := s!"kill -{signal} {task.pid} 2>/dev/null && echo \"KILLED\" || echo \"FAILED\""
      match exec killCmd with
      | .error _ => (reg, [killCmd], .ok false)
      | .ok result =>
        let killed := jsTrim result.stdout == "KILLED"
        if killed then
          let upd := updateTaskStatus reg taskId now exec
          (upd.1, killCmd :: upd.2.1, .ok true)
        else (reg, [killCmd], .ok false)

/-! ### `VagrantClient.killProcess` (`src/unnamed/part_001`, lines 958-1010) -/

/-- The result shape of `killProcess`. -/
structure KillProcessResult where
  success : Bool
  pid : Int
  signal : String
  message : String
deriving DecidableEq, Repr

/-- The signal allow-list of `killProcess`. -/
def validSignals : List String :=
  ["SIGTERM", "SIGKILL", "SIGINT", "SIGHUP", "SIGSTOP", "SIGCONT",
   "SIGUSR1", "SIGUSR2", "SIGQUIT", "9", "15", "2", "1"]

/-- `normalizedSignal.match(/^\d+$/)`: a non-empty all-digit string. -/
def isAllDigits (s : String) : Bool :=
  s.length > 0 && s.toList.all Char.isDigit

/-- Whether `killProcess` accepts the signal: in the allow-list after
upper-casing, or purely numeric. -/
def isValidSignal (signal : String) : Bool :=
  validSignals.contains (jsToUpper signal) || isAllDigits (jsToUpper signal)

/-- `VagrantClient.killProcess`: validates the signal against the
allow-list before touching the VM, then verifies the process exists with a
`ps -p` probe, and only then sends `kill -<signal> <pid>`.  The `exec`
oracle stands for `this.executeCommand` (whose thrown errors propagate);
the issued guest commands are returned in order. -/
def killProcess (pid : Int) (signal : String)
    (exec : String → Except String CommandResult) :
    Except String KillProcessResult × List String :=
  let normalizedSignal := jsToUpper signal
  if ¬(validSignals.contains normalizedSignal) ∧ ¬(isAllDigits normalizedSignal) then
    (.ok ⟨false, pid, normalizedSignal,
      s!"Invalid signal: {signal}. Valid signals: SIGTERM, SIGKILL, SIGINT, SIGHUP, etc."⟩, [])
  else
    let checkCmd := s!"ps -p {pid} -o pid= 2>/dev/null"
    match exec checkCmd with
    | .error e => (.error e, [checkCmd])
    | .ok checkResult =>
      if checkResult.exitCode ≠ 0 ∨ jsTrim checkResult.stdout = "" then
        (.ok ⟨false, pid, normalizedSignal,
          s!"Process {pid} not found or already terminated"⟩, [checkCmd])
      else
        let killCmd := s!"kill -{normalizedSignal} {pid} 2>&1"
        match exec killCmd with
        | .error e => (.error e, [checkCmd, killCmd])
        | .ok result =>
          if result.exitCode = 0 then
            (.ok ⟨true, pid, normalizedSignal,
              s!"Signal {normalizedSignal} sent to process {pid}"⟩, [checkCmd, killCmd])
          else
            (.ok ⟨false, pid, normalizedSignal,
              jsStrOr result.stderr (jsStrOr result.stdout
                s!"Failed to send signal to process {pid}")⟩, [checkCmd, killCmd])

/-! ### `sync-engine/src/operation-tracker.ts`: `OperationTracker` -/

/-- `OperationType`. -/
inductive OperationType where
  | download | upload | compile | install | extract | command | custom
deriving DecidableEq, Repr

/-- The literal string of an `OperationType` (for message interpolation). -/
def OperationType.str : OperationType → String
  | .download => "download"
  | .upload => "upload"
  | .compile => "compile"
  | .install => "install"
  | .extract => "extract"
  | .command => "command"
  | .custom => "custom"

/-- `OperationStatus`. -/
inductive OperationStatus where
  | pending | running | completed | failed | timeout | cancelled
deriving DecidableEq, Repr

/-- The terminal-state test of `updateProgress` and `waitForCompletion`:
`['completed', 'failed', 'timeout', 'cancelled'].includes(status)`. -/
def statusTerminal (s : OperationStatus) : Bool :=
  [OperationStatus.completed, .failed, .timeout, .cancelled].contains s

/-- The active-state test of `cancelOperation` and `getActiveOperations`:
`['pending', 'running'].includes(status)`. -/
def statusActive (s : OperationStatus) : Bool :=
  [OperationStatus.pending, .running].contains s

/-- `ProgressInfo`: one entry of the Operation Progress Tracker.  `Date`
values are epoch milliseconds (`Nat`); byte counts and the rounded
speed/percent/ETA values are `Int` (results of JS `Math.round` or
`parseInt`); `durationSeconds` keeps the unrounded float as an exact
rational. -/
structure ProgressInfo where
  operationId : String
  type : OperationType
  status : OperationStatus
  vmName : String
  bytesTotal : Option Int := none
  bytesCompleted : Option Int := none
  percentComplete : Option Int := none
  bytesPerSecond : Option Int := none
  startedAt : Nat
  completedAt : Option Nat := none
  estimatedTimeRemaining : Option Int := none
  lastUpdatedAt : Nat
  durationSeconds : Option ℚ := none
  command : String
  pid : Option Int := none
  logFile : Option String := none
  outputPath : Option String := none
  exitCode : Option Int := none
  errorMessage : Option String := none
  statusMessage : String
deriving DecidableEq, Repr

/-- The guest-side observations consumed by one `updateProgress` call: the
current clock, the outcome of the `kill -0` liveness probe, the stdout of
the metric probes (file size / file count / log line count), whether the
metric probe threw (its errors are swallowed by the inner catch), the
stdout of `tail -100 <logFile>`, the stderr capture file's content (the
`tail -50` command applied to it is modelled inside
`getProcessExitInfo`), and whether the exit-info probes threw. -/
structure Probe where
  now : Nat
  killProbe : Except Unit String
  statOut : String := ""
  findOut : String := ""
  wcOut : String := ""
  metricsFail : Bool := false
  tailLog : String := ""
  stderrFileLines : List String := []
  exitInfoFails : Bool := false
deriving Repr

/-- `Math.floor(Math.log n / Math.log b)` for `n ≥ 1`, as the exact
floor logarithm (structural fuel recursion so the definition evaluates;
the first argument is the fuel, instantiated with `n` itself). -/
def floorLogB (b : Nat) : Nat → Nat → Nat
  | 0, _ => 0
  | fuel + 1, n => if n < b then 0 else floorLogB b fuel (n / b) + 1

/-- The size-suffix array `['B', 'KB', 'MB', 'GB', 'TB']` (an out-of-range
index is JS `undefined`, printed as `undefined`). -/
def sizeSuffix (i : Nat) : String :=
  match i with
  | 0 => "B" | 1 => "KB" | 2 => "MB" | 3 => "GB" | 4 => "TB"
  | _ => "undefined"

/-- `parseFloat((value).toFixed(2))` rendering: the value in hundredths,
printed with trailing zeros dropped. -/
def renderHundredths (h : Nat) : String :=
  let w := h / 100
  let f := h % 100
  if f = 0 then s!"{w}"
  else if f % 10 = 0 then s!"{w}.{f / 10}"
  else if f < 10 then s!"{w}.0{f}"
  else s!"{w}.{f}"

/-- `formatBytes`: `parseFloat((bytes / 1024^i).toFixed(2)) + ' ' + sizes[i]`
with `i = floor(log bytes / log 1024)`.  The double-precision logarithm and
`toFixed` are modelled by the exact floor logarithm and exact half-up
rounding to hundredths; a negative byte count makes the JS computation
produce `NaN` and an `undefined` suffix. -/
def formatBytes (bytes : Int) : String :=
  if bytes = 0 then "0 B"
  else if bytes < 0 then "NaN undefined"
  else
    let n := bytes.toNat
    let i := floorLogB 1024 n n
    let pw := (1024 : Nat) ^ i
    let hundredths := (200 * n + pw) / (2 * pw)
    renderHundredths hundredths ++ " " ++ sizeSuffix i

/-- `formatDuration` (applied to the rounded integer ETA; a negative value
falls into the first branch exactly as in JS). -/
def formatDuration (seconds : Int) : String :=
  if seconds < 60 then s!"{seconds}s"
  else if seconds < 3600 then s!"{seconds / 60}m {seconds % 60}s"
  else s!"{seconds / 3600}h {(seconds % 3600) / 60}m"

/-- `formatDownloadStatus`. -/
def formatDownloadStatus (p : ProgressInfo) : String :=
  let completed := formatBytes (jsOrNum p.bytesCompleted 0)
  let total :=
    match p.bytesTotal with
    | some t => if t ≠ 0 then formatBytes t else "unknown"
    | none => "unknown"
  let speed :=
    match p.bytesPerSecond with
    | some s => if s ≠ 0 then s!"{formatBytes s}/s" else ""
    | none => ""
  let eta :=
    match p.estimatedTimeRemaining with
    | some e => if e ≠ 0 then s!"ETA: {formatDuration e}" else ""
    | none => ""
  jsTrim s!"Downloading: {completed} / {total} ({jsOrNum p.percentComplete 0}%) {speed} {eta}"

/-- `updateDownloadProgress`: stat the destination file, recompute byte
count, instantaneous speed, percent and ETA, then re-render the status
message.  Percent is `Math.round((currentSize / bytesTotal) * 100)` with no
clamping; the double arithmetic is modelled by the exact rational (both are
monotone in `currentSize`, and the rounding differences of the double
division are far below the half-unit rounding step for the byte counts at
issue). -/
def updateDownloadProgress (p : ProgressInfo) (probe : Probe) : ProgressInfo :=
  if ¬jsStrTruthy p.outputPath then p
  else if probe.metricsFail then p
  else
    let currentSize := jsOrNum (jsParseInt (jsTrim probe.statOut)) 0
    let previousSize := jsOrNum p.bytesCompleted 0
    let timeDelta : ℚ := ((probe.now : ℚ) - (p.lastUpdatedAt : ℚ)) / 1000
    let p1 := { p with bytesCompleted := some currentSize }
    let p2 :=
      if timeDelta > 0 then
        { p1 with bytesPerSecond := some (jsRound (((currentSize - previousSize : Int) : ℚ) / timeDelta)) }
      else p1
    let p3 :=
      match p2.bytesTotal with
      | some t =>
        if t ≠ 0 ∧ t > 0 then
          let withPct := { p2 with percentComplete := some (jsRound (((currentSize : ℚ) / (t : ℚ)) * 100)) }
          match withPct.bytesPerSecond with
          | some spd =>
            if spd ≠ 0 ∧ spd > 0 then
              { withPct with estimatedTimeRemaining := some (jsRound (((t - currentSize : Int) : ℚ) / (spd : ℚ))) }
            else withPct
          | none => withPct
        else p2
      | none => p2
    { p3 with statusMessage := formatDownloadStatus p3 }

/-- `updateExtractProgress`: count extracted files, update the message. -/
def updateExtractProgress (p : ProgressInfo) (probe : Probe) : ProgressInfo :=
  if ¬jsStrTruthy p.outputPath then p
  else if probe.metricsFail then p
  else
    let fileCount := jsOrNum (jsParseInt (jsTrim probe.findOut)) 0
    { p with statusMessage := s!"Extracting... {fileCount} files extracted" }

/-- `updateGenericProgress`: log line count as the progress indicator. -/
def updateGenericProgress (p : ProgressInfo) (probe : Probe) : ProgressInfo :=
  if ¬jsStrTruthy p.logFile then p
  else if probe.metricsFail then p
  else
    let lineCount := jsOrNum (jsParseInt (jsTrim probe.wcOut)) 0
    { p with statusMessage := s!"Running... {lineCount} log lines" }

/-- `updateProgressMetrics`: dispatch on the operation type. -/
def updateProgressMetrics (p : ProgressInfo) (probe : Probe) : ProgressInfo :=
  match p.type with
  | .download => updateDownloadProgress p probe
  | .extract => updateExtractProgress p probe
  | _ => updateGenericProgress p probe

/-- The record returned by `getProcessExitInfo`. -/
structure ExitInfo where
  exitCode : Int
  stdout : String
  stderr : String
deriving DecidableEq, Repr

/-- The stderr keyword scan of `getProcessExitInfo`:
`stderr.toLowerCase().includes('error' | 'failed' | 'fatal')`. -/
def stderrHasError (s : String) : Bool :=
  strContains (jsToLower s) "error" || strContains (jsToLower s) "failed" ||
    strContains (jsToLower s) "fatal"

/-- `getProcessExitInfo` (lines 456-483): reads `tail -100` of the log file
and `tail -50` of the stderr capture (the `tail` semantics on the stored
line list is modelled by `lastN 50`), then classifies: any case-insensitive
occurrence of `error`/`failed`/`fatal` in the stderr tail means exit code
1, otherwise exit code 0; a thrown probe is caught and reported as exit
code `-1`. -/
def getProcessExitInfo (probe : Probe) : ExitInfo :=
  if probe.exitInfoFails then ⟨-1, "", "Failed to get exit info"⟩
  else
    let stderrTail := String.intercalate "\n" (lastN 50 probe.stderrFileLines)
    let hasError := stderrHasError stderrTail
    ⟨if hasError then 1 else 0, probe.tailLog, stderrTail⟩

/-- `checkProcessRunning` (lines 441-451): the stdout of the
`kill -0 <pid> ... && echo "RUNNING" || echo "STOPPED"` probe, trimmed and
compared against `RUNNING`; a thrown probe is caught as `false`. -/
def checkProcessRunning (probe : Probe) : Bool :=
  match probe.killProbe with
  | .ok out => jsTrim out == "RUNNING"
  | .error _ => false

/-- `updateProgress` (lines 256-307), per-entry core: terminal entries are
returned untouched; otherwise the `kill -0` probe decides between the
metric update (status stays `running`) and the exit classification
(`completed` with code 0 and 100 percent, or `failed` with the heuristic
code).  A probe whose liveness command threw is caught inside
`checkProcessRunning` and treated as stopped. -/
def refreshStep (p : ProgressInfo) (probe : Probe) : ProgressInfo :=
  if statusTerminal p.status then p
  else
    let now := probe.now
    let durationSeconds : ℚ := ((now : ℚ) - (p.startedAt : ℚ)) / 1000
    let isRunning := checkProcessRunning probe
    if isRunning then
      let p1 := updateProgressMetrics p probe
      { p1 with status := .running, lastUpdatedAt := now, durationSeconds := some durationSeconds }
    else
      let info := getProcessExitInfo probe
      let p1 :=
        if info.exitCode = 0 then
          { p with status := .completed, exitCode := some 0, percentComplete := some 100,
                   statusMessage := "Operation completed successfully" }
        else
          { p with status := .failed, exitCode := some info.exitCode,
                   errorMessage := some info.stderr,
                   statusMessage := s!"Operation failed with exit code {info.exitCode}" }
      { p1 with completedAt := some now, lastUpdatedAt := now, durationSeconds := some durationSeconds }

/-- `cancelOperation` (lines 545-575), per-entry core: an entry that is not
`pending`/`running` is refused without modification; otherwise a truthy pid
triggers the remote SIGTERM/SIGKILL sequence (whose thrown error is caught
and reported as `false` with the entry unmodified) and the entry is marked
`cancelled`. -/
def cancelStep (p : ProgressInfo) (killOutcome : Except Unit Unit) (now : Nat) :
    Bool × ProgressInfo :=
  if ¬statusActive p.status then (false, p)
  else
    let killThrew : Bool :=
      match p.pid with
      | some pid =>
        if pid ≠ 0 then (match killOutcome with | .ok _ => false | .error _ => true)
        else false
      | none => false
    if killThrew then (false, p)
    else
      (true, { p with status := .cancelled, statusMessage := "Operation cancelled by user",
                      completedAt := some now })

/-- `StartOperationOptions`. -/
structure StartOperationOptions where
  vmName : String
  type : OperationType
  command : String
  workingDir : Option String := none
  expectedBytes : Option Int := none
  outputPath : Option String := none
  logFile : Option String := none
  description : Option String := none
deriving DecidableEq, Repr

/-- The two in-memory maps of the `OperationTracker`. -/
structure OpRegistry where
  operations : List (String × ProgressInfo)
  operationsByVM : List (String × List String)
deriving DecidableEq, Repr

/-- Empty registry (fresh `OperationTracker`). -/
def OpRegistry.empty : OpRegistry := ⟨[], []⟩

/-- JS `Map.prototype.set` on the operations map. -/
def opMapSet (m : List (String × ProgressInfo)) (k : String) (v : ProgressInfo) :
    List (String × ProgressInfo) :=
  if m.any (fun e => e.1 == k) then
    m.map (fun e => if e.1 == k then (k, v) else e)
  else m ++ [(k, v)]

/-- `buildTrackedCommand` (lines 243-248). -/
def buildTrackedCommand (command logFile stderrFile : String)
    (workingDir : Option String) : String :=
  let cdP := if jsStrTruthy workingDir then s!"cd \"{jsShowOptStr workingDir}\" && " else ""
  s!"{cdP}nohup sh -c \x27{escapeSQ command}\x27 > \"{logFile}\" 2> \"{stderrFile}\" & echo \"PID:$!\""

/-- The regex scan `stdout.match(/PID:(\d+)/)`: the first occurrence of
`PID:` followed by at least one digit, returning the maximal digit run. -/
def pidScan : List Char → Option String
  | [] => none
  | c :: rest =>
    if leadMatch "PID:".toList (c :: rest) then
      let ds := ((c :: rest).drop 4).takeWhile Char.isDigit
      if ds.isEmpty then pidScan rest else some (String.mk ds)
    else pidScan rest

/-- `OperationTracker.startOperation` (lines 188-238): wrap the command,
dispatch it through the client (the `exec` oracle, whose thrown errors
propagate), parse the echoed pid, and only then register the new
`running` entry in both maps; a falsy pid is a hard error raised before
any mutation. -/
def startOperation (reg : OpRegistry) (options : StartOperationOptions)
    (operationId : String) (now : Nat)
    (exec : String → Except String CommandResult) :
    OpRegistry × Except String (String × ProgressInfo) :=
  let logFile := jsOptStrOr options.logFile s!"/tmp/mcp_op_{operationId}.log"
  let stderrFile := s!"/tmp/mcp_op_{operationId}.err"
  let wrappedCommand := buildTrackedCommand options.command logFile stderrFile options.workingDir
  match exec wrappedCommand with
  | .error e => (reg, .error e)
  | .ok result =>
    let pid := (pidScan result.stdout.toList).bind jsParseInt
    if ¬jsNumTruthy pid then
      (reg, .error s!"Failed to start operation: could not capture PID. Output: {result.stdout}")
    else
      let progress : ProgressInfo :=
        { operationId := operationId, type := options.type, status := .running,
          vmName := options.vmName, bytesTotal := options.expectedBytes,
          bytesCompleted := some 0, percentComplete := some 0, startedAt := now,
          lastUpdatedAt := now, command := options.command, pid := pid,
          logFile := some logFile, outputPath := options.outputPath,
          statusMessage := jsOptStrOr options.description
            s!"Started {options.type.str} operation" }
      (⟨opMapSet reg.operations operationId progress,
        vmIndexAdd reg.operationsByVM options.vmName operationId⟩,
       .ok (operationId, progress))

/-- `WaitOptions` (the `onProgress` callback does not affect the tracked
state and is omitted). -/
structure WaitOptions where
  timeoutSeconds : Option Nat := none
  pollIntervalMs : Option Nat := none
deriving DecidableEq, Repr

/-- The poll loop of `waitForCompletion` (lines 512-534).  The model clock
starts at 0 and advances `pollMs` per sleep, so after `k` sleeps the
elapsed wall time is `k * pollMs` (probe latencies are idealized to zero);
`tsEff` is the already-defaulted timeout in seconds, used both for the
`k * pollMs > tsEff * 1000` check and the timeout message.  The extra fuel
argument only serves Lean's termination checker: because the effective
poll interval is at least 1ms, `tsEff * 1000 + 2` iterations always reach
either a terminal status or the timeout branch, so the fuel-exhausted
clause is unreachable for the fuel supplied by `waitForCompletion`. -/
def waitLoop (tsEff pollMs : Nat) (probes : Nat → Probe) :
    Nat → Nat → ProgressInfo → ProgressInfo
  | 0, _, p => p
  | fuel + 1, k, p =>
    if statusTerminal p.status then p
    else if k * pollMs > tsEff * 1000 then
      { p with status := .timeout,
               statusMessage := s!"Operation timed out after {tsEff} seconds",
               completedAt := some (k * pollMs) }
    else waitLoop tsEff pollMs probes fuel (k + 1) (refreshStep p (probes k))

/-- `OperationTracker.waitForCompletion` (lines 502-537), per-entry core:
apply the `|| DEFAULT` option defaulting (0 is falsy, so the effective
timeout is at least 1 second and the effective poll interval at least
1ms), then run the poll loop. -/
def waitForCompletion (opts : WaitOptions) (probes : Nat → Probe)
    (p : ProgressInfo) : ProgressInfo :=
  let tsEff := jsOrNat opts.timeoutSeconds 600
  let pollMs := jsOrNat opts.pollIntervalMs 2000
  waitLoop tsEff pollMs probes (tsEff * 1000 + 2) 0 p

/-! ### `apps/mcp-server/src/index.ts`: `atomic_transaction_exec`
(first version, lines 492-511) -/

/-- The snapshot name chosen by the atomic wrapper:
`` `pre-atomic-${Date.now()}` ``. -/
def snapName (now : Nat) : String := "pre-atomic-" ++ Nat.repr now

/-- The externally visible snapshot/command invocations of one
`atomic_transaction_exec` call, in order. -/
inductive SnapAction where
  | save (vm snap : String)
  | exec (vm cmd : String)
  | restore (vm snap : String)
deriving DecidableEq, Repr

/-- The `atomic_transaction_exec` tool branch: take a `pre-atomic-<now>`
snapshot (via `snapshotSave`, which sanitizes the name and throws only when
the VM has no managed directory), execute the command, and on a non-zero
exit with `rollback_on_fail` throw — the catch then restores the snapshot
exactly once and re-raises.  `execResult` is the outcome of
`executeCommand` (an `.error` models its thrown failure, also routed
through the catch).  On success the snapshot is left in place.  Returns
the tool outcome and the ordered invocation list. -/
def atomicTransactionExec (vmDirExists : Bool) (vm command : String)
    (rollbackOnFail : Bool) (now : Nat)
    (execResult : Except String CommandResult) :
    Except String CommandResult × List SnapAction :=
  let snapshotName := snapName now
  if ¬vmDirExists then (.error s!"VM {vm} not found", [])
  else
    let sanitized := sanitizeSnapshotName snapshotName
    let actions := [SnapAction.save vm sanitized, SnapAction.exec vm command]
    match execResult with
    | .error e =>
      if rollbackOnFail then (.error e, actions ++ [SnapAction.restore vm sanitized])
      else (.error e, actions)
    | .ok result =>
      if result.exitCode ≠ 0 ∧ rollbackOnFail then
        (.error s!"Command failed with exit code {result.exitCode}. Rolling back...",
         actions ++ [SnapAction.restore vm sanitized])
      else (.ok result, actions)

/-! ### Concrete fixtures used by witnesses and counterexamples -/

/-- An exec oracle that accepts every command with empty output. -/
def execNoop : String → Except String CommandResult := fun _ => .ok ⟨"", "", 0, false⟩

/-- An exec oracle whose stdout acknowledges a failed in-VM `kill`. -/
def execSaysFailed : String → Except String CommandResult := fun _ => .ok ⟨"FAILED", "", 0, false⟩

/-- An exec oracle modelling a wrapper invocation that exits non-zero. -/
def execExit1 : String → Except String CommandResult := fun _ => .ok ⟨"", "boom", 1, false⟩

/-- An exec oracle whose stdout carries no parsable pid. -/
def execNoPid : String → Except String CommandResult := fun _ => .ok ⟨"no pid here", "", 0, false⟩

/-- A completed background task, for the terminal-stickiness witness. -/
def taskDone : TaskInfo :=
  { taskId := "t1", vmName := "vm1", pid := 42, command := "make", logFile := "/tmp/l",
    stderrFile := "/tmp/e", startedAt := 0, status := .completed, workingDir := "/home/vagrant" }

/-- A registry holding only `taskDone`. -/
def regDone : TaskRegistry := ⟨[("t1", taskDone)], [("vm1", ["t1"])]⟩

/-- A running background task, for the kill-signal counterexample. -/
def taskRun : TaskInfo :=
  { taskId := "t1", vmName := "vm1", pid := 42, command := "make", logFile := "/tmp/l",
    stderrFile := "/tmp/e", startedAt := 0, status := .running, workingDir := "/home/vagrant" }

/-- A registry holding only `taskRun`. -/
def regRun : TaskRegistry := ⟨[("t1", taskRun)], [("vm1", ["t1"])]⟩

/-- A terminal (completed) tracked operation. -/
def opDone : ProgressInfo :=
  { operationId := "op1", type := .download, status := .completed, vmName := "vm1",
    bytesTotal := some 100, bytesCompleted := some 100, percentComplete := some 100,
    startedAt := 0, lastUpdatedAt := 5000, command := "wget x", pid := some 42,
    logFile := some "/tmp/l", outputPath := some "/tmp/f", exitCode := some 0,
    statusMessage := "Operation completed successfully" }

/-- A running download operation as `startOperation` registers it. -/
def opRun : ProgressInfo :=
  { operationId := "op1", type := .download, status := .running, vmName := "vm1",
    bytesTotal := some 100, bytesCompleted := some 0, percentComplete := some 0,
    startedAt := 0, lastUpdatedAt := 0, command := "wget x", pid := some 42,
    logFile := some "/tmp/l", outputPath := some "/tmp/f",
    statusMessage := "Started download operation" }

/-- A probe observing a still-running process (trivial metrics). -/
def probeRunning : Probe := { now := 0, killProbe := .ok "RUNNING" }

/-- A constant stream of `probeRunning`: a never-completing command. -/
def probesRunning : Nat → Probe := fun _ => probeRunning

/-- A probe observing a running download whose destination file has the
given stat output. -/
def runProbe (now : Nat) (sizeOut : String) : Probe :=
  { now := now, killProbe := .ok "RUNNING", statOut := sizeOut }

/-- A probe observing a stopped process with the given stderr capture. -/
def stopProbe (now : Nat) (lines : List String) : Probe :=
  { now := now, killProbe := .ok "STOPPED", stderrFileLines := lines }

/-- The parsed destination-file size a download refresh extracts from a
probe: `parseInt(sizeResult.stdout.trim(), 10) || 0`. -/
def probeSize (pr : Probe) : Int := jsOrNum (jsParseInt (jsTrim pr.statOut)) 0

/-- The rounded download percentage for total `T` and current size `s`:
`Math.round((currentSize / bytesTotal) * 100)`. -/
def pct (T s : Int) : Int := jsRound (((s : ℚ) / (T : ℚ)) * 100)

/-- Percent comparison between two refresh states: both report a percentage
and they are non-decreasing. -/
def pctLe (a b : ProgressInfo) : Prop :=
  ∃ x y, a.percentComplete = some x ∧ b.percentComplete = some y ∧ x ≤ y

/-- Environment for the timeout counterexample: one native-only VM whose
guest-control invocation times out without an exit code. -/
def envNativeTimeout : VagrantEnv :=
  { localVMs := [], globalVMs := [], nativeVMs := ["natvm"], vboxOk := true,
    vmStatus := fun _ => .running, sshLocal := .success "" "" 0,
    sshGlobal := .success "" "" 0, guest := .failure none none none true }

/-- Environment for the timeout witness: one locally managed VM whose
`vagrant ssh` invocation times out. -/
def envLocalTimeout : VagrantEnv :=
  { localVMs := ["dev"], globalVMs := [], nativeVMs := [], vboxOk := false,
    vmStatus := fun _ => .unknown, sshLocal := .failure (some "partial") none none true,
    sshGlobal := .success "" "" 0, guest := .success "" "" 0 }

/-- Environment with overlapping backends, for the resolution witness:
`alpha` exists in all three backends, `beta` in global and native,
`gamma` only natively. -/
def envOverlap : VagrantEnv :=
  { localVMs := ["alpha"],
    globalVMs := [⟨"0a1b2c3", "alpha", .running, "/proj/a"⟩, ⟨"4d5e6f7", "beta", .running, "/proj/b"⟩],
    nativeVMs := ["alpha", "beta", "gamma"], vboxOk := true,
    vmStatus := fun _ => .running, sshLocal := .success "local" "" 0,
    sshGlobal := .success "global" "" 0, guest := .success "native" "" 0 }

/-- Environment for the suggestion example: no backend has `webserver`, but
`web-server` is a locally known name. -/
def envSuggest : VagrantEnv :=
  { localVMs := ["web-server"], globalVMs := [], nativeVMs := [], vboxOk := false,
    vmStatus := fun _ => .not_created, sshLocal := .success "" "" 0,
    sshGlobal := .success "" "" 0, guest := .success "" "" 0 }

/-- Options registering a download, for the registration-atomicity witness. -/
def optsDl : StartOperationOptions :=
  { vmName := "vm1", type := .download, command := "wget x", outputPath := some "/tmp/f",
    expectedBytes := some 100 }

/-- Wait options with a 1-second timeout. -/
def optsWait1s : WaitOptions := { timeoutSeconds := some 1, pollIntervalMs := some 1000 }

/-- Decimal value of a character list (inverse reading of `Nat.toDigits`). -/
def chListVal (l : List Char) : Nat := l.foldl (fun a c => 10 * a + (c.toNat - 48)) 0

/-! ### Helper lemmas -/

theorem statusTerminal_not_active {s : OperationStatus} (h : statusTerminal s = true) :
    statusActive s = false := by
  cases s <;> simp_all [statusTerminal, statusActive]

theorem refreshStep_terminal {p : ProgressInfo} (probe : Probe)
    (h : statusTerminal p.status = true) : refreshStep p probe = p := by
  unfold refreshStep
  simp [h]

theorem cancelStep_terminal {p : ProgressInfo} (o : Except Unit Unit) (now : Nat)
    (h : statusTerminal p.status = true) : cancelStep p o now = (false, p) := by
  unfold cancelStep
  simp [statusTerminal_not_active h]

theorem refreshStep_running_status {p : ProgressInfo} {probe : Probe}
    (hterm : statusTerminal p.status = false)
    (hrun : checkProcessRunning probe = true) :
    (refreshStep p probe).status = .running := by
  unfold refreshStep
  simp [hterm, hrun]

theorem jsOrNat_pos {x : Option Nat} {d : Nat} (hd : 1 ≤ d) : 1 ≤ jsOrNat x d := by
  unfold jsOrNat
  match x with
  | none => exact hd
  | some v =>
    by_cases h : v = 0
    · simp [h]; omega
    · simp [h]; omega

/-! ### Claim theorems -/

/-- C1: once a tracked operation's status is any of `{completed, failed,
timeout, cancelled}`, a refresh (`updateProgress`) returns the entry
unchanged and a cancellation (`cancelOperation`) returns `false` without
modifying it; likewise for the Background Task Registry, whose terminal
statuses (`completed`/`failed`) make `updateTaskStatus` a registry-no-op
that issues no guest command and make `killTask` return `false` without
issuing a kill. -/
theorem terminal_status_sticky :
    (∀ (p : ProgressInfo) (probe : Probe) (o : Except Unit Unit) (now : Nat),
      statusTerminal p.status = true →
      refreshStep p probe = p ∧ cancelStep p o now = (false, p)) ∧
    (∀ (reg : TaskRegistry) (taskId signal : String) (now : Nat)
      (exec : String → Except String CommandResult) (task : TaskInfo),
      taskLookup reg taskId = some task →
      task.status = .completed ∨ task.status = .failed →
      updateTaskStatus reg taskId now exec = (reg, [], .ok ()) ∧
      killTask reg taskId signal now exec = (reg, [], .ok false)) := by
  refine ⟨fun p probe o now h => ⟨refreshStep_terminal probe h, cancelStep_terminal o now h⟩,
    fun reg taskId signal now exec task hlook hterm => ⟨?_, ?_⟩⟩
  · unfold updateTaskStatus
    rw [hlook]
    simp [hterm]
  · unfold killTask
    rw [hlook]
    rcases hterm with h | h <;> simp [h]

/-- C1 witness: a completed download operation and a completed background
task are untouched by refresh and cancellation. -/
theorem terminal_status_sticky_witness :
    (refreshStep opDone probeRunning = opDone ∧
      cancelStep opDone (.ok ()) 9000 = (false, opDone)) ∧
    (updateTaskStatus regDone "t1" 9000 execNoop = (regDone, [], .ok ()) ∧
      killTask regDone "t1" "SIGKILL" 9000 execNoop = (regDone, [], .ok false)) :=
  ⟨terminal_status_sticky.1 opDone probeRunning (.ok ()) 9000 (by decide),
   terminal_status_sticky.2 regDone "t1" "SIGKILL" 9000 execNoop taskDone (by decide)
     (Or.inl (by decide))⟩

/-- C6: when the liveness probe reports the process stopped, the refresh
classifies the outcome from the last 50 lines of the stderr capture,
case-insensitively: any occurrence of `error`, `failed` or `fatal` marks
the operation `failed` with exit code 1; otherwise it is marked `completed`
with exit code 0 and `percentComplete` 100. -/
theorem stopped_refresh_classification :
    ∀ (p : ProgressInfo) (probe : Probe),
      statusTerminal p.status = false →
      checkProcessRunning probe = false →
      probe.exitInfoFails = false →
      (stderrHasError (String.intercalate "\n" (lastN 50 probe.stderrFileLines)) = true →
        (refreshStep p probe).status = .failed ∧ (refreshStep p probe).exitCode = some 1) ∧
      (stderrHasError (String.intercalate "\n" (lastN 50 probe.stderrFileLines)) = false →
        (refreshStep p probe).status = .completed ∧ (refreshStep p probe).exitCode = some 0 ∧
        (refreshStep p probe).percentComplete = some 100) := by
  intro p probe hterm hstop hinfo
  constructor
  · intro herr
    unfold refreshStep getProcessExitInfo
    simp [hterm, hstop, hinfo, herr]
  · intro herr
    unfold refreshStep getProcessExitInfo
    simp [hterm, hstop, hinfo, herr]

/-- C6 witness: a stderr tail containing `Error:` yields `failed`/1, a
clean stderr tail yields `completed`/0 with 100 percent. -/
theorem stopped_refresh_classification_witness :
    ((refreshStep opRun (stopProbe 4000 ["wget: Error: no route"])).status = .failed ∧
      (refreshStep opRun (stopProbe 4000 ["wget: Error: no route"])).exitCode = some 1) ∧
    ((refreshStep opRun (stopProbe 4000 ["saved 100%"])).status = .completed ∧
      (refreshStep opRun (stopProbe 4000 ["saved 100%"])).exitCode = some 0 ∧
      (refreshStep opRun (stopProbe 4000 ["saved 100%"])).percentComplete = some 100) :=
  ⟨(stopped_refresh_classification opRun (stopProbe 4000 ["wget: Error: no route"])
      (by decide) (by decide) (by decide)).1 (by decide),
   (stopped_refresh_classification opRun (stopProbe 4000 ["saved 100%"])
      (by decide) (by decide) (by decide)).2 (by decide)⟩

theorem waitLoop_times_out :
    ∀ (f k : Nat) (p : ProgressInfo) (tsEff pollMs : Nat) (probes : Nat → Probe),
      1 ≤ pollMs →
      (∀ i, checkProcessRunning (probes i) = true) →
      statusTerminal p.status = false →
      tsEff * 1000 < (k + f) * pollMs →
      (waitLoop tsEff pollMs probes (f + 1) k p).status = .timeout := by
  intro f
  induction f with
  | zero =>
    intro k p tsEff pollMs probes _ _ hterm hlt
    have hgt : k * pollMs > tsEff * 1000 := by
      have he : (k + 0) * pollMs = k * pollMs := by ring
      rw [he] at hlt
      exact hlt
    unfold waitLoop
    simp [hterm, hgt]
  | succ f ih =>
    intro k p tsEff pollMs probes hpoll hrun hterm hlt
    unfold waitLoop
    simp only [hterm, Bool.false_eq_true, if_false]
    by_cases hto : k * pollMs > tsEff * 1000
    · simp [hto]
    · simp only [hto, if_false]
      apply ih (k + 1) _ tsEff pollMs probes hpoll hrun
        (by rw [refreshStep_running_status hterm (hrun k)]; decide)
      have he : (k + 1 + f) * pollMs = (k + (f + 1)) * pollMs := by ring
      rw [he]
      exact hlt

/-- C3: `waitForCompletion` on a never-completing operation (every liveness
probe reports `RUNNING`) deterministically returns with status `timeout`
once the wall-clock timeout elapses, for every timeout/poll configuration;
in particular the poll loop with a 0-second effective timeout returns
`timeout`, not `running`. -/
theorem wait_forces_timeout :
    (∀ (opts : WaitOptions) (probes : Nat → Probe) (p : ProgressInfo),
      (∀ i, checkProcessRunning (probes i) = true) →
      p.status = .running →
      (waitForCompletion opts probes p).status = .timeout) ∧
    (∀ (pollMs : Nat) (probes : Nat → Probe) (p : ProgressInfo),
      1 ≤ pollMs →
      (∀ i, checkProcessRunning (probes i) = true) →
      p.status = .running →
      (waitLoop 0 pollMs probes 2 0 p).status = .timeout) := by
  constructor
  · intro opts probes p hrun hstat
    have hpoll : 1 ≤ jsOrNat opts.pollIntervalMs 2000 := jsOrNat_pos (by omega)
    show (waitLoop (jsOrNat opts.timeoutSeconds 600) (jsOrNat opts.pollIntervalMs 2000)
      probes ((jsOrNat opts.timeoutSeconds 600 * 1000 + 1) + 1) 0 p).status = .timeout
    apply waitLoop_times_out _ 0 p _ _ probes hpoll hrun (by rw [hstat]; decide)
    have h0 : (0 + (jsOrNat opts.timeoutSeconds 600 * 1000 + 1)) *
        jsOrNat opts.pollIntervalMs 2000 =
        (jsOrNat opts.timeoutSeconds 600 * 1000 + 1) * jsOrNat opts.pollIntervalMs 2000 := by
      ring
    rw [h0]
    calc jsOrNat opts.timeoutSeconds 600 * 1000
        < jsOrNat opts.timeoutSeconds 600 * 1000 + 1 := Nat.lt_succ_self _
      _ ≤ (jsOrNat opts.timeoutSeconds 600 * 1000 + 1) * jsOrNat opts.pollIntervalMs 2000 :=
          Nat.le_mul_of_pos_right _ (by omega)
  · intro pollMs probes p hpoll hrun hstat
    apply waitLoop_times_out 1 0 p 0 pollMs probes hpoll hrun (by rw [hstat]; decide)
    have h0 : (0 + 1) * pollMs = pollMs := by ring
    rw [h0]
    omega

/-- C3 witness: a 1-second wait over a constant `RUNNING` probe stream ends
in status `timeout`, as does the 0-second loop. -/
theorem wait_forces_timeout_witness :
    (waitForCompletion optsWait1s probesRunning opRun).status = .timeout ∧
    (waitLoop 0 1000 probesRunning 2 0 opRun).status = .timeout :=
  ⟨wait_forces_timeout.1 optsWait1s probesRunning opRun (fun _ => rfl) rfl,
   wait_forces_timeout.2 1000 probesRunning opRun (by omega) (fun _ => rfl) rfl⟩

/-- C10: registration is atomic — whenever `registerTask` or
`startOperation` throws (wrapper exited non-zero, no positive pid parsed,
or the dispatch itself threw), the returned registry is exactly the
registry passed in: neither the id-keyed map nor the VM-name index gained
an entry. -/
theorem registration_atomic :
    (∀ (reg : TaskRegistry) (vmName command workingDir : String)
      (credentials : Option VMCredentials) (taskId : String) (now : Nat)
      (exec : String → Except String CommandResult) (e : String),
      (registerTask reg vmName command workingDir credentials taskId now exec).2 = .error e →
      (registerTask reg vmName command workingDir credentials taskId now exec).1 = reg) ∧
    (∀ (reg : OpRegistry) (options : StartOperationOptions) (operationId : String)
      (now : Nat) (exec : String → Except String CommandResult) (e : String),
      (startOperation reg options operationId now exec).2 = .error e →
      (startOperation reg options operationId now exec).1 = reg) := by
  constructor
  · intro reg vmName command workingDir credentials taskId now exec e
    unfold registerTask
    dsimp only
    split
    · intro _; rfl
    · split
      · intro _; rfl
      · split
        · intro _; rfl
        · split
          · intro _; rfl
          · intro h; simp at h
  · intro reg options operationId now exec e
    unfold startOperation
    dsimp only
    split
    · intro _; rfl
    · split
      · intro _; rfl
      · intro h; simp at h

/-- C10 witness: a wrapper exiting 1 and a wrapper output with no pid both
leave the respective registries exactly as before. -/
theorem registration_atomic_witness :
    (registerTask TaskRegistry.empty "vm1" "make" "/home/vagrant" none "t9" 0 execExit1).1 =
      TaskRegistry.empty ∧
    (startOperation OpRegistry.empty optsDl "op9" 0 execNoPid).1 = OpRegistry.empty :=
  ⟨registration_atomic.1 TaskRegistry.empty "vm1" "make" "/home/vagrant" none "t9" 0 execExit1
      "Failed to start background task: boom" (by rfl),
   registration_atomic.2 OpRegistry.empty optsDl "op9" 0 execNoPid
      "Failed to start operation: could not capture PID. Output: no pid here" (by rfl)⟩

/-- C4 counterexample: the Task Registry's `killTask`, called with the
invalid signal `SIGBANANA` on a running task, does issue a remote kill
command (`kill -SIGBANANA 42 ...`) to the VM — it performs no signal
validation — and reports a plain kill failure, not a validation failure. -/
theorem killTask_forwards_invalid_signal :
    isValidSignal "SIGBANANA" = false ∧
    (killTask regRun "t1" "SIGBANANA" 0 execSaysFailed).2.1 =
      ["kill -SIGBANANA 42 2>/dev/null && echo \"KILLED\" || echo \"FAILED\""] ∧
    (killTask regRun "t1" "SIGBANANA" 0 execSaysFailed).2.1 ≠ [] ∧
    (killTask regRun "t1" "SIGBANANA" 0 execSaysFailed).2.2 = .ok false :=
  ⟨by decide, by decide, by decide, rfl⟩

/-- C4 (amended): the signal allow-list validation lives in the VM client's
`killProcess` (the pid-based `kill_process` tool): a signal outside the
allow-list (e.g. `SIGBANANA`) makes it return a validation failure without
issuing any remote command.  The Task Registry's `killTask` performs no
validation: for a running task it always issues the remote
`kill -<signal> <pid>` command first. -/
theorem kill_signal_validation :
    (∀ (pid : Int) (signal : String) (exec : String → Except String CommandResult),
      isValidSignal signal = false →
      killProcess pid signal exec =
        (.ok ⟨false, pid, jsToUpper signal,
          s!"Invalid signal: {signal}. Valid signals: SIGTERM, SIGKILL, SIGINT, SIGHUP, etc."⟩,
         [])) ∧
    (∀ (reg : TaskRegistry) (taskId signal : String) (now : Nat)
      (exec : String → Except String CommandResult) (task : TaskInfo),
      taskLookup reg taskId = some task → task.status = .running →
      ∃ rest, (killTask reg taskId signal now exec).2.1 =
        s!"kill -{signal} {task.pid} 2>/dev/null && echo \"KILLED\" || echo \"FAILED\"" :: rest) := by
  constructor
  · intro pid signal exec h
    unfold isValidSignal at h
    rw [Bool.or_eq_false_iff] at h
    unfold killProcess
    simp only [h.1, h.2, Bool.false_eq_true, not_false_eq_true, and_self, if_true]
  · intro reg taskId signal now exec task hlook hstat
    unfold killTask
    rw [hlook]
    simp only [hstat, ne_eq, not_true_eq_false, if_false, reduceIte]
    cases hx : exec s!"kill -{signal} {task.pid} 2>/dev/null && echo \"KILLED\" || echo \"FAILED\"" with
    | error e => exact ⟨[], rfl⟩
    | ok result =>
      by_cases hk : jsTrim result.stdout == "KILLED"
      · simp only [hk, if_true, reduceIte]
        exact ⟨(updateTaskStatus reg taskId now exec).2.1, rfl⟩
      · simp only [hk]
        exact ⟨[], rfl⟩

/-- C4 amended witness: `killProcess` with `SIGBANANA` returns the
validation failure and issues no remote command; `killTask` with the same
signal issues the kill command. -/
theorem kill_signal_validation_witness :
    killProcess 42 "SIGBANANA" execNoop =
      (.ok ⟨false, 42, "SIGBANANA",
        "Invalid signal: SIGBANANA. Valid signals: SIGTERM, SIGKILL, SIGINT, SIGHUP, etc."⟩,
       []) ∧
    ∃ rest, (killTask regRun "t1" "SIGBANANA" 0 execNoop).2.1 =
      "kill -SIGBANANA 42 2>/dev/null && echo \"KILLED\" || echo \"FAILED\"" :: rest :=
  ⟨kill_signal_validation.1 42 "SIGBANANA" execNoop (by decide),
   kill_signal_validation.2 regRun "t1" "SIGBANANA" 0 execNoop taskRun (by decide) (by decide)⟩

/-- C2 counterexample: on the native guest-control path the timeout
sentinel is not applied — a timed-out guest invocation whose error object
carries no exit code yields `timedOut = true` with `exitCode = 1`
(`error.exitCode || 1`), not the 124 sentinel, so the invariant fails on
that backend path. -/
theorem timeout_sentinel_native_counterexample :
    executeCommand envNativeTimeout "natvm" "sleep 999" {} =
      .ok ⟨"", "", 1, true⟩ ∧
    resolveBackend envNativeTimeout "natvm" = some .nativeHypervisor ∧
    ((1 : Int) = 124 → False) :=
  ⟨rfl, by decide, by decide⟩

/-- C2 (amended): on the locally managed and global declarative dispatch
paths, `timedOut = true` in the returned Command Result implies the fixed
sentinel exit code 124; the native guest-control path instead propagates
`error.exitCode || 1`. -/
theorem timeout_sentinel_declarative :
    ∀ (env : VagrantEnv) (name cmd : String) (opts : ExecOpts) (r : CommandResult),
      (resolveBackend env name = some .localManaged ∨
        resolveBackend env name = some .globalDeclarative) →
      executeCommand env name cmd opts = .ok r →
      r.timedOut = true →
      r.exitCode = 124 := by
  intro env name cmd opts r hres hexec hto
  by_cases hloc : name ∈ env.localVMs
  · unfold executeCommand at hexec
    rw [if_pos hloc] at hexec
    have hr : r = sshLocalResult env.sshLocal := by
      cases hexec
      rfl
    subst hr
    revert hto
    cases env.sshLocal with
    | success out err code => intro hto; simp [sshLocalResult] at hto
    | failure out err code timedOut =>
      intro hto
      by_cases ht : timedOut
      · simp [sshLocalResult, ht]
      · simp [sshLocalResult, ht] at hto
  · unfold resolveBackend at hres
    rw [if_neg hloc] at hres
    unfold executeCommand at hexec
    rw [if_neg hloc] at hexec
    cases hg : findGlobalVM env name with
    | none =>
      rw [hg] at hres
      rcases hres with h | h <;> simp at h
    | some g =>
      rw [hg] at hexec
      have hr : r = sshGlobalResult env.sshGlobal := by
        cases hexec
        rfl
      subst hr
      revert hto
      cases env.sshGlobal with
      | success out err code => intro hto; simp [sshGlobalResult] at hto
      | failure out err code timedOut =>
        intro hto
        by_cases ht : timedOut
        · simp [sshGlobalResult, ht]
        · simp [sshGlobalResult, ht] at hto

/-- C2 amended witness: a timed-out `vagrant ssh` on a locally managed VM
returns the 124 sentinel with `timedOut` set. -/
theorem timeout_sentinel_declarative_witness :
    executeCommand envLocalTimeout "dev" "sleep 999" {} = .ok ⟨"partial", "", 124, true⟩ ∧
    (124 : Int) = 124 :=
  ⟨rfl,
   timeout_sentinel_declarative envLocalTimeout "dev" "sleep 999" {} ⟨"partial", "", 124, true⟩
     (Or.inl (by decide)) rfl rfl⟩

theorem foldl_digits_shift (l : List Char) :
    ∀ a : Nat, l.foldl (fun a c => 10 * a + (c.toNat - 48)) a =
      a * 10 ^ l.length + l.foldl (fun a c => 10 * a + (c.toNat - 48)) 0 := by
  induction l with
  | nil => intro a; simp
  | cons c t ih =>
    intro a
    simp only [List.foldl_cons, List.length_cons]
    rw [ih (10 * a + (c.toNat - 48)), ih (10 * 0 + (c.toNat - 48))]
    ring

theorem digitChar_val {m : Nat} (h : m < 10) : (Nat.digitChar m).toNat - 48 = m := by
  interval_cases m <;> decide

theorem digitChar_isDigit {m : Nat} (h : m < 10) : (Nat.digitChar m).isDigit = true := by
  interval_cases m <;> decide

theorem toDigitsCore_val :
    ∀ (fuel n : Nat) (ds : List Char), n < fuel →
      chListVal (Nat.toDigitsCore 10 fuel n ds) = n * 10 ^ ds.length + chListVal ds := by
  intro fuel
  induction fuel with
  | zero => intro n ds h; omega
  | succ f ih =>
    intro n ds h
    unfold Nat.toDigitsCore
    by_cases h10 : n / 10 = 0
    · simp only [h10, if_true, reduceIte]
      unfold chListVal
      simp only [List.foldl_cons]
      rw [foldl_digits_shift]
      rw [digitChar_val (show n % 10 < 10 by omega)]
      have hm : n % 10 = n := by omega
      rw [hm]
      ring
    · simp only [h10, if_false, reduceIte]
      have hlt : n / 10 < f := by
        have h1 : n / 10 < n := Nat.div_lt_self (by omega) (by omega)
        omega
      rw [ih (n / 10) (Nat.digitChar (n % 10) :: ds) hlt]
      unfold chListVal
      simp only [List.foldl_cons, List.length_cons]
      rw [foldl_digits_shift]
      rw [digitChar_val (show n % 10 < 10 by omega)]
      have hdm : 10 * (n / 10) + n % 10 = n := Nat.div_add_mod n 10
      calc n / 10 * 10 ^ (ds.length + 1) +
            ((10 * 0 + n % 10) * 10 ^ ds.length +
              List.foldl (fun a c => 10 * a + (c.toNat - 48)) 0 ds)
          = (10 * (n / 10) + n % 10) * 10 ^ ds.length +
              List.foldl (fun a c => 10 * a + (c.toNat - 48)) 0 ds := by ring
        _ = n * 10 ^ ds.length +
              List.foldl (fun a c => 10 * a + (c.toNat - 48)) 0 ds := by rw [hdm]

theorem chListVal_repr (n : Nat) : chListVal (Nat.repr n).toList = n := by
  unfold Nat.repr Nat.toDigits
  have h : (Nat.toDigitsCore 10 (n + 1) n []).asString.toList =
      Nat.toDigitsCore 10 (n + 1) n [] := rfl
  rw [h, toDigitsCore_val (n + 1) n [] (Nat.lt_succ_self n)]
  simp [chListVal]

theorem natRepr_injective : Function.Injective Nat.repr := by
  intro m n h
  have h3 : chListVal (Nat.repr m).toList = chListVal (Nat.repr n).toList := by rw [h]
  rw [chListVal_repr, chListVal_repr] at h3
  exact h3

theorem toDigitsCore_digits :
    ∀ (fuel n : Nat) (ds : List Char),
      (∀ c ∈ ds, c.isDigit = true) →
      ∀ c ∈ Nat.toDigitsCore 10 fuel n ds, c.isDigit = true := by
  intro fuel
  induction fuel with
  | zero => intro n ds hds; simpa [Nat.toDigitsCore] using hds
  | succ f ih =>
    intro n ds hds
    unfold Nat.toDigitsCore
    by_cases h10 : n / 10 = 0
    · simp only [h10, if_true, reduceIte]
      intro c hc
      rcases List.mem_cons.mp hc with h | h
      · subst h; exact digitChar_isDigit (by omega)
      · exact hds c h
    · simp only [h10, if_false, reduceIte]
      refine ih (n / 10) _ ?_
      intro c hc
      rcases List.mem_cons.mp hc with h | h
      · subst h; exact digitChar_isDigit (by omega)
      · exact hds c h

theorem natRepr_digits (n : Nat) : ∀ c ∈ (Nat.repr n).toList, c.isDigit = true := by
  unfold Nat.repr Nat.toDigits
  exact toDigitsCore_digits (n + 1) n [] (by simp)

theorem snapName_injective : Function.Injective snapName := by
  intro m n h
  have hdata : "pre-atomic-".toList ++ (Nat.repr m).toList =
      "pre-atomic-".toList ++ (Nat.repr n).toList := congrArg String.toList h
  have h2 := List.append_cancel_left hdata
  have h3 : chListVal (Nat.repr m).toList = chListVal (Nat.repr n).toList := by rw [h2]
  rw [chListVal_repr, chListVal_repr] at h3
  exact h3

theorem listMapId {f : Char → Char} :
    ∀ l : List Char, (∀ x ∈ l, f x = x) → l.map f = l := by
  intro l
  induction l with
  | nil => intro _; rfl
  | cons c t ih =>
    intro hl
    simp only [List.map_cons]
    rw [hl c (by simp), ih (fun x hx => hl x (by simp [hx]))]

theorem sanitize_snapName (now : Nat) :
    sanitizeSnapshotName (snapName now) = snapName now := by
  have hall : ∀ c ∈ (snapName now).toList,
      (if c.isAlphanum || c == '_' || c == '-' then c else '_') = c := by
    intro c hc
    have hsplit : (snapName now).toList = "pre-atomic-".toList ++ (Nat.repr now).toList := rfl
    rw [hsplit] at hc
    rcases List.mem_append.mp hc with h | h
    · have hlit : ∀ x ∈ "pre-atomic-".toList,
          (if x.isAlphanum || x == '_' || x == '-' then x else '_') = x := by decide
      exact hlit c h
    · have hd := natRepr_digits now c h
      have ha : c.isAlphanum = true := by
        unfold Char.isAlphanum
        rw [hd, Bool.or_true]
      simp [ha]
  show String.mk ((snapName now).toList.map _) = snapName now
  rw [listMapId _ hall]
  rfl

/-- C7: a snapshot-guarded atomic run with `rollbackOnFail` whose command
exits non-zero takes the uniquely named snapshot `pre-atomic-<timestamp>`
before executing (the sanitization leaves such names unchanged, and
distinct timestamps give distinct names), issues exactly one
snapshot-restore of that same snapshot afterwards, and re-raises the
failure to the caller; on success the snapshot is left in place — no
restore and no cleanup is issued. -/
theorem atomic_rollback :
    (∀ (vm cmd : String) (now : Nat) (r : CommandResult), r.exitCode ≠ 0 →
      atomicTransactionExec true vm cmd true now (.ok r) =
        (.error s!"Command failed with exit code {r.exitCode}. Rolling back...",
         [SnapAction.save vm (snapName now), SnapAction.exec vm cmd,
          SnapAction.restore vm (snapName now)])) ∧
    (∀ (vm cmd : String) (rollbackOnFail : Bool) (now : Nat) (r : CommandResult),
      r.exitCode = 0 →
      atomicTransactionExec true vm cmd rollbackOnFail now (.ok r) =
        (.ok r, [SnapAction.save vm (snapName now), SnapAction.exec vm cmd])) ∧
    Function.Injective snapName := by
  refine ⟨?_, ?_, snapName_injective⟩
  · intro vm cmd now r h
    unfold atomicTransactionExec
    dsimp only
    rw [sanitize_snapName]
    simp [h]
  · intro vm cmd rollbackOnFail now r h
    unfold atomicTransactionExec
    dsimp only
    rw [sanitize_snapName]
    simp [h]

/-- C7 witness: a command exiting 1 under `rollbackOnFail` produces exactly
the save/exec/restore sequence and the re-raised failure; an exit-0 run
leaves the snapshot in place; distinct timestamps give distinct snapshot
names. -/
theorem atomic_rollback_witness :
    atomicTransactionExec true "vm1" "false" true 7 (.ok ⟨"", "", 1, false⟩) =
      (.error "Command failed with exit code 1. Rolling back...",
       [SnapAction.save "vm1" "pre-atomic-7", SnapAction.exec "vm1" "false",
        SnapAction.restore "vm1" "pre-atomic-7"]) ∧
    atomicTransactionExec true "vm1" "true" true 8 (.ok ⟨"", "", 0, false⟩) =
      (.ok ⟨"", "", 0, false⟩,
       [SnapAction.save "vm1" "pre-atomic-8", SnapAction.exec "vm1" "true"]) ∧
    snapName 7 ≠ snapName 8 :=
  ⟨atomic_rollback.1 "vm1" "false" 7 ⟨"", "", 1, false⟩ (by decide),
   atomic_rollback.2.1 "vm1" "true" true 8 ⟨"", "", 0, false⟩ rfl,
   fun h => by simpa using atomic_rollback.2.2 h⟩

theorem closestScan_mem :
    ∀ (cands : List String) (target : String) (acc : Option (String × Nat))
      (c : String) (d : Nat),
      List.foldl (fun acc candidate =>
        let distance := leven target candidate
        match acc with
        | none => some (candidate, distance)
        | some best => if distance < best.2 then some (candidate, distance) else acc)
        acc cands = some (c, d) →
      c ∈ cands ∨ acc = some (c, d) := by
  intro cands
  induction cands with
  | nil => intro target acc c d h; exact Or.inr h
  | cons x xs ih =>
    intro target acc c d h
    simp only [List.foldl_cons] at h
    rcases ih target _ c d h with hmem | hacc
    · exact Or.inl (List.mem_cons_of_mem _ hmem)
    · cases acc with
      | none =>
        simp only [Option.some.injEq, Prod.mk.injEq] at hacc
        exact Or.inl (by simp [hacc.1])
      | some best =>
        dsimp only at hacc
        by_cases hlt : leven target x < best.2
        · simp only [hlt, if_true, reduceIte, Option.some.injEq, Prod.mk.injEq] at hacc
          exact Or.inl (by simp [hacc.1])
        · simp only [hlt, if_false, reduceIte] at hacc
          exact Or.inr hacc

/-- C9: a resolution failure surfaces a closest-match suggestion drawn from
the locally known VM names only when the best candidate's Levenshtein
distance is at most 3 edits or at most 40 percent of the target's length;
in particular resolving `webserver` when only `web-server` exists locally
produces a not-found error whose message contains `web-server`. -/
theorem not_found_suggestion :
    (∀ (target : String) (cands : List String) (c : String),
      closestMatch target cands = some c →
      c ∈ cands ∧ ∃ d, closestScan target cands = some (c, d) ∧
        (d ≤ 3 ∨ 10 * d ≤ 4 * target.length)) ∧
    (executeCommand envSuggest "webserver" "ls" {} =
      .error "VM webserver not found. Did you mean \x27web-server\x27?" ∧
      strContains (notFoundMsg envSuggest "webserver") "web-server" = true) := by
  constructor
  · intro target cands c h
    unfold closestMatch at h
    by_cases he : cands.isEmpty
    · simp [he] at h
    · rw [if_neg he] at h
      cases hs : closestScan target cands with
      | none => rw [hs] at h; simp at h
      | some best =>
        rw [hs] at h
        dsimp only at h
        by_cases hg : best.2 > 3 ∧ 10 * best.2 > 4 * target.length
        · rw [if_pos hg] at h; simp at h
        · rw [if_neg hg] at h
          have hc : best.1 = c := by simpa using h
          have hscan : closestScan target cands = some (c, best.2) := by
            rw [hs, ← hc]
          have hmem : c ∈ cands ∨ (none : Option (String × Nat)) = some (c, best.2) := by
            apply closestScan_mem cands target none c best.2
            have hh := hscan
            unfold closestScan at hh
            exact hh
          rcases hmem with hm | hm
          · exact ⟨hm, best.2, by rw [← hc], by omega⟩
          · simp at hm
  · exact ⟨rfl, by decide⟩

/-- C9 witness: the guard clause instantiated at the `webserver` example. -/
theorem not_found_suggestion_witness :
    "web-server" ∈ ["web-server"] ∧
    ∃ d, closestScan "webserver" ["web-server"] = some ("web-server", d) ∧
      (d ≤ 3 ∨ 10 * d ≤ 4 * "webserver".length) :=
  not_found_suggestion.1 "webserver" ["web-server"] "web-server" (by decide)

theorem anyKey_map {m : List (String × VMEntry)} {k n : String} {v : VMEntry}
    (h : m.any (fun e => e.1 == k) = false) (hnk : (n == k) = false) :
    (m.map (fun e => if e.1 == n then (n, v) else e)).any (fun e => e.1 == k) = false := by
  induction m with
  | nil => rfl
  | cons e t ih =>
    simp only [List.any_cons, Bool.or_eq_false_iff] at h
    simp only [List.map_cons, List.any_cons, Bool.or_eq_false_iff]
    refine ⟨?_, ih h.2⟩
    by_cases he : e.1 == n
    · simp [he, hnk]
    · simp [he, h.1]

theorem mapSet_keyFalse {m : List (String × VMEntry)} {k n : String} {v : VMEntry}
    (h : m.any (fun e => e.1 == k) = false) (hnk : (n == k) = false) :
    (mapSet m n v).any (fun e => e.1 == k) = false := by
  unfold mapSet
  by_cases hm : m.any (fun e => e.1 == n)
  · simp only [hm, if_true, reduceIte]
    exact anyKey_map h hnk
  · simp only [hm, if_false, Bool.false_eq_true, reduceIte, List.any_append, List.any_cons,
      List.any_nil, Bool.or_eq_false_iff]
    exact ⟨h, by simp [hnk]⟩

theorem mapSet_preserves_mem {m : List (String × VMEntry)} {k : String} {v : VMEntry}
    {x : String × VMEntry} (hx : x ∈ m) (hk : (x.1 == k) = false) : x ∈ mapSet m k v := by
  unfold mapSet
  by_cases hm : m.any (fun e => e.1 == k)
  · simp only [hm, if_true, reduceIte]
    have hfix : (fun e : String × VMEntry => if e.1 == k then (k, v) else e) x = x := by
      simp [hk]
    rw [← hfix]
    exact List.mem_map_of_mem _ hx
  · simp only [hm, if_false, Bool.false_eq_true, reduceIte]
    exact List.mem_append_left _ hx

theorem anyKey_of_mem {m : List (String × VMEntry)} {x : String × VMEntry} (hx : x ∈ m) :
    m.any (fun e => e.1 == x.1) = true := by
  induction m with
  | nil => cases hx
  | cons e t ih =>
    rcases List.mem_cons.mp hx with h | h
    · subst h; simp
    · simp [ih h]

theorem localFold_keyFalse {name : String} :
    ∀ (l : List String) (acc : List (String × VMEntry)),
      acc.any (fun e => e.1 == name) = false → name ∉ l →
      ((l.foldl (fun m n => mapSet m n ⟨n, .vagrant⟩) acc).any (fun e => e.1 == name)) = false := by
  intro l
  induction l with
  | nil => intro acc h _; exact h
  | cons n t ih =>
    intro acc h hnl
    simp only [List.foldl_cons]
    have hnn : (n == name) = false := by
      simp only [beq_eq_false_iff_ne, ne_eq]
      intro heq
      exact hnl (by simp [heq])
    exact ih _ (mapSet_keyFalse h hnn) (fun hmem => hnl (by simp [hmem]))

theorem natFold_mem {name : String} :
    ∀ (l : List String) (acc : List (String × VMEntry)),
      ((name ∈ l ∧ acc.any (fun e => e.1 == name) = false) ∨
        (name, (⟨name, .native⟩ : VMEntry)) ∈ acc) →
      (name, (⟨name, .native⟩ : VMEntry)) ∈
        l.foldl (fun m n => if m.any (fun e => e.1 == n) then m
          else mapSet m n ⟨n, .native⟩) acc := by
  intro l
  induction l with
  | nil =>
    intro acc h
    rcases h with ⟨hmem, _⟩ | h
    · cases hmem
    · exact h
  | cons n t ih =>
    intro acc h
    simp only [List.foldl_cons]
    rcases h with ⟨hmem, hkey⟩ | h
    · by_cases hn : n = name
      · subst hn
        rw [hkey]
        simp only [Bool.false_eq_true, if_false, reduceIte]
        apply ih
        right
        unfold mapSet
        rw [hkey]
        simp
      · have hnn : (n == name) = false := by simp [hn]
        have hmem' : name ∈ t := (List.mem_cons.mp hmem).resolve_left (fun h => hn h.symm)
        by_cases hk : acc.any (fun e => e.1 == n)
        · simp only [hk, if_true, reduceIte]
          exact ih _ (Or.inl ⟨hmem', hkey⟩)
        · simp only [hk, Bool.false_eq_true, if_false, reduceIte]
          exact ih _ (Or.inl ⟨hmem', mapSet_keyFalse hkey hnn⟩)
    · by_cases hk : acc.any (fun e => e.1 == n)
      · simp only [hk, if_true, reduceIte]
        exact ih _ (Or.inr h)
      · simp only [hk, Bool.false_eq_true, if_false, reduceIte]
        apply ih
        right
        by_cases hn : n = name
        · subst hn
          have hmm := anyKey_of_mem h
          simp only at hmm
          rw [hmm] at hk
          exact absurd rfl hk
        · refine mapSet_preserves_mem h ?_
          simp only [beq_eq_false_iff_ne, ne_eq]
          exact fun hcontra => hn hcontra.symm

theorem globFold_mem {name : String} :
    ∀ (l : List GlobalVM) (acc : List (String × VMEntry)),
      (name, (⟨name, .native⟩ : VMEntry)) ∈ acc →
      (∀ v ∈ l, ¬(v.name == name || v.id == name) = true) →
      (name, (⟨name, .native⟩ : VMEntry)) ∈
        l.foldl (fun m v =>
          if m.any (fun e => e.1 == v.name) then m
          else
            let m' := mapSet m v.name ⟨v.name, .vagrant⟩
            if v.id != "" then mapSet m' v.id ⟨v.name, .vagrant⟩ else m') acc := by
  intro l
  induction l with
  | nil => intro acc h _; exact h
  | cons v t ih =>
    intro acc h hall
    simp only [List.foldl_cons]
    have hv := hall v (by simp)
    rw [Bool.or_eq_true] at hv
    push_neg at hv
    have hvn : (v.name == name) = false := Bool.eq_false_iff.mpr hv.1
    have hvi : (v.id == name) = false := Bool.eq_false_iff.mpr hv.2
    have hvn' : (name == v.name) = false := by
      simp only [beq_eq_false_iff_ne, ne_eq] at hvn ⊢
      exact fun h => hvn h.symm
    have hvi' : (name == v.id) = false := by
      simp only [beq_eq_false_iff_ne, ne_eq] at hvi ⊢
      exact fun h => hvi h.symm
    have hrest : ∀ w ∈ t, ¬(w.name == name || w.id == name) = true :=
      fun w hw => hall w (by simp [hw])
    by_cases hk : acc.any (fun e => e.1 == v.name)
    · simp only [hk, if_true, reduceIte]
      exact ih _ h hrest
    · simp only [hk, Bool.false_eq_true, if_false, reduceIte]
      refine ih _ ?_ hrest
      dsimp only
      by_cases hid : v.id != ""
      · simp only [hid, if_true, reduceIte]
        exact mapSet_preserves_mem (mapSet_preserves_mem h hvn') hvi'
      · simp only [hid, Bool.false_eq_true, if_false, reduceIte]
        exact mapSet_preserves_mem h hvn'

theorem nativeEntry_exists (env : VagrantEnv) (name : String)
    (hv : env.vboxOk = true) (hn : name ∈ env.nativeVMs) (hl : name ∉ env.localVMs)
    (hg : findGlobalVM env name = none) :
    ((listVMsEntries env).find?
      (fun v => v.name == name && v.managedBy == .native)).isSome = true := by
  unfold listVMsEntries
  rw [hv]
  simp only [if_true, reduceIte]
  have hm0 : ((env.localVMs.foldl (fun m n => mapSet m n ⟨n, .vagrant⟩) []).any
      (fun e => e.1 == name)) = false :=
    localFold_keyFalse env.localVMs [] rfl hl
  have hm1 : (name, (⟨name, .native⟩ : VMEntry)) ∈
      env.nativeVMs.foldl (fun m n => if m.any (fun e => e.1 == n) then m
        else mapSet m n ⟨n, .native⟩)
        (env.localVMs.foldl (fun m n => mapSet m n ⟨n, .vagrant⟩) []) :=
    natFold_mem env.nativeVMs _ (Or.inl ⟨hn, hm0⟩)
  have hall : ∀ v ∈ env.globalVMs, ¬(v.name == name || v.id == name) = true := by
    intro v hvv
    unfold findGlobalVM at hg
    have := List.find?_eq_none.mp hg v hvv
    simpa using this
  have hm2 := globFold_mem env.globalVMs _ hm1 hall
  rw [List.find?_isSome]
  exact ⟨⟨name, .native⟩, List.mem_map_of_mem _ hm2, by simp⟩

/-- C5: `executeCommand` dispatches exactly according to the three-tier
resolution order — a name with a managed working directory always uses the
Local-Managed path regardless of the other backends; otherwise a
global-status match (by name or id) always wins over the Native hypervisor
path; and a VM known only to the hypervisor is dispatched natively.  In
particular, a name present in exactly one backend is dispatched to that
backend. -/
theorem backend_resolution :
    (∀ (env : VagrantEnv) (name cmd : String) (opts : ExecOpts),
      executeCommand env name cmd opts =
        match resolveBackend env name with
        | some .localManaged => .ok (sshLocalResult env.sshLocal)
        | some .globalDeclarative => .ok (sshGlobalResult env.sshGlobal)
        | some .nativeHypervisor => executeCommandNative env name cmd opts
        | none => .error (notFoundMsg env name)) ∧
    (∀ (env : VagrantEnv) (name : String), name ∈ env.localVMs →
      resolveBackend env name = some .localManaged) ∧
    (∀ (env : VagrantEnv) (name : String), name ∉ env.localVMs →
      (findGlobalVM env name).isSome = true →
      resolveBackend env name = some .globalDeclarative) ∧
    (∀ (env : VagrantEnv) (name : String), name ∉ env.localVMs →
      findGlobalVM env name = none → env.vboxOk = true → name ∈ env.nativeVMs →
      resolveBackend env name = some .nativeHypervisor) := by
  refine ⟨?_, ?_, ?_, ?_⟩
  · intro env name cmd opts
    unfold executeCommand resolveBackend
    by_cases hloc : name ∈ env.localVMs
    · simp [hloc]
    · simp only [hloc, if_false, reduceIte]
      cases hg : findGlobalVM env name with
      | some g => rfl
      | none =>
        by_cases hf : ((listVMsEntries env).find?
            (fun v => v.name == name && v.managedBy == .native)).isSome
        · simp [hf]
        · simp [hf]
  · intro env name hloc
    unfold resolveBackend
    rw [if_pos hloc]
  · intro env name hloc hsome
    unfold resolveBackend
    rw [if_neg hloc]
    rw [Option.isSome_iff_exists] at hsome
    obtain ⟨g, hg⟩ := hsome
    rw [hg]
  · intro env name hloc hg hvbox hnat
    unfold resolveBackend
    rw [if_neg hloc, hg]
    simp [nativeEntry_exists env name hvbox hnat hloc hg]

/-- C5 witness: in an environment where `alpha` exists in all three
backends, `beta` in the global registry and the hypervisor, and `gamma`
only in the hypervisor, resolution picks Local, Global and Native
respectively, and `executeCommand` follows it. -/
theorem backend_resolution_witness :
    executeCommand envOverlap "alpha" "ls" {} = .ok ⟨"local", "", 0, false⟩ ∧
    executeCommand envOverlap "beta" "ls" {} = .ok ⟨"global", "", 0, false⟩ ∧
    executeCommand envOverlap "gamma" "ls" {} = .ok ⟨"native", "", 0, false⟩ ∧
    resolveBackend envOverlap "alpha" = some .localManaged ∧
    resolveBackend envOverlap "beta" = some .globalDeclarative ∧
    resolveBackend envOverlap "gamma" = some .nativeHypervisor :=
  ⟨rfl, rfl, rfl,
   backend_resolution.2.1 envOverlap "alpha" (by decide),
   backend_resolution.2.2.1 envOverlap "beta" (by decide) (by decide),
   backend_resolution.2.2.2 envOverlap "gamma" (by decide) (by decide) rfl (by decide)⟩

theorem floor_half : ⌊(1/2 : ℚ)⌋ = 0 := by
  rw [Int.floor_eq_zero_iff]
  constructor <;> norm_num

theorem jsRound_intCast (n : ℤ) : jsRound ((n : ℚ)) = n := by
  unfold jsRound
  rw [add_comm, Int.floor_add_int, floor_half]
  omega

theorem pct_mono {T : Int} (hT : 0 < T) {s s' : Int} (h : s ≤ s') :
    pct T s ≤ pct T s' := by
  unfold pct jsRound
  apply Int.floor_mono
  have hTq : (0 : ℚ) < (T : ℚ) := by exact_mod_cast hT
  have hd : (s : ℚ) / (T : ℚ) ≤ (s' : ℚ) / (T : ℚ) :=
    (div_le_div_right hTq).mpr (by exact_mod_cast h)
  nlinarith

theorem pct_le_100 {T : Int} (hT : 0 < T) {s : Int} (h : s ≤ T) : pct T s ≤ 100 := by
  unfold pct jsRound
  have hTq : (0 : ℚ) < (T : ℚ) := by exact_mod_cast hT
  have hd : (s : ℚ) / (T : ℚ) ≤ 1 := by
    rw [div_le_one hTq]
    exact_mod_cast h
  have h1 : (s : ℚ) / (T : ℚ) * 100 + 1/2 ≤ (100 : ℤ) + 1/2 := by
    push_cast
    nlinarith
  calc ⌊(s : ℚ) / (T : ℚ) * 100 + 1/2⌋ ≤ ⌊((100 : ℤ) : ℚ) + 1/2⌋ := Int.floor_mono h1
    _ = 100 := by rw [add_comm, Int.floor_add_int, floor_half]; ring

theorem pct_nonneg {T : Int} (hT : 0 < T) {s : Int} (h : 0 ≤ s) : 0 ≤ pct T s := by
  unfold pct jsRound
  rw [Int.le_floor]
  have hTq : (0 : ℚ) < (T : ℚ) := by exact_mod_cast hT
  have hs : (0 : ℚ) ≤ (s : ℚ) := by exact_mod_cast h
  have : (0 : ℚ) ≤ (s : ℚ) / (T : ℚ) := by positivity
  push_cast
  nlinarith

theorem updateDownload_proj {p : ProgressInfo} {q : Probe} {T : Int}
    (htot : p.bytesTotal = some T) (hT : 0 < T)
    (hout : jsStrTruthy p.outputPath = true) (hmf : q.metricsFail = false) :
    (updateDownloadProgress p q).type = p.type ∧
    (updateDownloadProgress p q).status = p.status ∧
    (updateDownloadProgress p q).bytesTotal = some T ∧
    (updateDownloadProgress p q).outputPath = p.outputPath ∧
    (updateDownloadProgress p q).percentComplete = some (pct T (probeSize q)) := by
  have hTne : T ≠ 0 := hT.ne'
  simp only [pct, probeSize]
  unfold updateDownloadProgress
  rw [hout, hmf]
  simp only [eq_self_iff_true, not_true, if_false, Bool.false_eq_true, reduceIte]
  rw [htot]
  simp only [apply_ite ProgressInfo.bytesTotal, ite_self]
  simp only [hTne, hT, ne_eq, not_false_eq_true, and_self, if_true, gt_iff_lt, reduceIte]
  simp only [apply_ite ProgressInfo.bytesPerSecond]
  repeat' split
  all_goals exact ⟨rfl, rfl, rfl, rfl, rfl⟩

theorem refresh_download_run {p : ProgressInfo} {q : Probe} {T : Int}
    (hty : p.type = .download) (hst : p.status = .running)
    (htot : p.bytesTotal = some T) (hT : 0 < T)
    (hout : jsStrTruthy p.outputPath = true) (hmf : q.metricsFail = false)
    (hrun : checkProcessRunning q = true) :
    (refreshStep p q).type = .download ∧
    (refreshStep p q).status = .running ∧
    (refreshStep p q).bytesTotal = some T ∧
    (refreshStep p q).outputPath = p.outputPath ∧
    (refreshStep p q).percentComplete = some (pct T (probeSize q)) := by
  have hterm : statusTerminal p.status = false := by rw [hst]; decide
  have hud := updateDownload_proj (q := q) htot hT hout hmf
  unfold refreshStep
  rw [hterm, hrun]
  simp only [Bool.false_eq_true, if_false, if_true, reduceIte]
  unfold updateProgressMetrics
  rw [hty]
  refine ⟨?_, ?_, ?_, ?_, ?_⟩ <;>
    first
      | rfl
      | trivial
      | exact hud.1.trans hty
      | exact hud.2.2.1
      | exact hud.2.2.2.1
      | exact hud.2.2.2.2

theorem refresh_stop_clean {p : ProgressInfo} {pr : Probe}
    (hterm : statusTerminal p.status = false)
    (hstop : checkProcessRunning pr = false) (hinfo : pr.exitInfoFails = false)
    (hclean : stderrHasError (String.intercalate "\n" (lastN 50 pr.stderrFileLines)) = false) :
    (refreshStep p pr).percentComplete = some 100 := by
  unfold refreshStep getProcessExitInfo
  simp [hterm, hstop, hinfo, hclean]

theorem scanl_head {f : ProgressInfo → Probe → ProgressInfo} (b : ProgressInfo)
    (l : List Probe) : (List.scanl f b l).head? = some b := by
  cases l <;> rfl

theorem pct_100_150 : pct 100 150 = 150 := by
  unfold pct
  have h : ((150 : Int) : ℚ) / ((100 : Int) : ℚ) * 100 = ((150 : Int) : ℚ) := by
    push_cast
    norm_num
  rw [h, jsRound_intCast]

/-- C8 counterexample: for a download with `bytesTotal = 100`, the single
observed size 150 (monotonically non-decreasing, but beyond the expected
total) yields percent 150, and the final refresh that marks the operation
completed forces percent back to 100 — the percent sequence
`[0, 150, 100]` is not monotone, refuting the claim as stated. -/
theorem download_percent_counterexample :
    ((List.scanl refreshStep opRun [runProbe 1000 "150", stopProbe 2000 []]).map
      (fun q => q.percentComplete)) = [some 0, some 150, some 100] ∧
    ¬ List.Chain' pctLe (List.scanl refreshStep opRun [runProbe 1000 "150", stopProbe 2000 []]) ∧
    List.Chain' (fun a b => probeSize a ≤ probeSize b) [runProbe 1000 "150"] := by
  have hstep := refresh_download_run (p := opRun) (q := runProbe 1000 "150") (T := 100)
    rfl rfl rfl (by norm_num) (by decide) rfl rfl
  have hsize : probeSize (runProbe 1000 "150") = 150 := by decide
  have h1 : (refreshStep opRun (runProbe 1000 "150")).percentComplete = some 150 := by
    rw [hstep.2.2.2.2, hsize, pct_100_150]
  have hterm1 : statusTerminal (refreshStep opRun (runProbe 1000 "150")).status = false := by
    rw [hstep.2.1]
    decide
  have h2 : (refreshStep (refreshStep opRun (runProbe 1000 "150"))
      (stopProbe 2000 [])).percentComplete = some 100 :=
    refresh_stop_clean hterm1 (by decide) rfl (by decide)
  refine ⟨?_, ?_, ?_⟩
  · show [opRun.percentComplete, (refreshStep opRun (runProbe 1000 "150")).percentComplete,
      (refreshStep (refreshStep opRun (runProbe 1000 "150")) (stopProbe 2000 [])).percentComplete]
      = [some 0, some 150, some 100]
    rw [h1, h2]
    rfl
  · intro hch
    have hch' : List.Chain' pctLe [opRun, refreshStep opRun (runProbe 1000 "150"),
        refreshStep (refreshStep opRun (runProbe 1000 "150")) (stopProbe 2000 [])] := hch
    have hp := (List.chain'_cons.mp ((List.chain'_cons.mp hch').2)).1
    obtain ⟨x, y, hx, hy, hxy⟩ := hp
    rw [h1] at hx
    rw [h2] at hy
    injection hx with hx
    injection hy with hy
    omega
  · simp

/-- C8 (amended): for a download operation with fixed known `bytesTotal`,
if the observed destination-file sizes are monotonically non-decreasing
and never exceed `bytesTotal`, then the reported `percentComplete` is
monotonically non-decreasing across successive refreshes, including the
final refresh that marks the operation completed (without the
never-exceed condition the unclamped rounding can report more than 100
percent and the completing refresh then lowers it, see the
counterexample). -/
theorem download_percent_monotone :
    ∀ (front : List Probe) (p : ProgressInfo) (T c : Int) (last : Probe),
      p.type = .download → p.status = .running → p.bytesTotal = some T → 0 < T →
      jsStrTruthy p.outputPath = true → p.percentComplete = some c → c ≤ 100 →
      (∀ pr, front.head? = some pr → c ≤ pct T (probeSize pr)) →
      (∀ pr ∈ front, checkProcessRunning pr = true ∧ pr.metricsFail = false ∧
        0 ≤ probeSize pr ∧ probeSize pr ≤ T) →
      List.Chain' (fun a b => probeSize a ≤ probeSize b) front →
      checkProcessRunning last = false → last.exitInfoFails = false →
      stderrHasError (String.intercalate "\n" (lastN 50 last.stderrFileLines)) = false →
      List.Chain' pctLe (List.scanl refreshStep p (front ++ [last])) := by
  intro front
  induction front with
  | nil =>
    intro p T c last hty hst htot hT hout hpc hc100 _ _ _ hstop hinfo hclean
    have hterm : statusTerminal p.status = false := by rw [hst]; decide
    have hpct := refresh_stop_clean hterm hstop hinfo hclean
    show List.Chain' pctLe [p, refreshStep p last]
    rw [List.chain'_pair]
    exact ⟨c, 100, hpc, hpct, hc100⟩
  | cons pr rest ih =>
    intro p T c last hty hst htot hT hout hpc hc100 hhead hall hchain hstop hinfo hclean
    have hmf : pr.metricsFail = false := (hall pr (by simp)).2.1
    have hrun : checkProcessRunning pr = true := (hall pr (by simp)).1
    have hstep := refresh_download_run hty hst htot hT hout hmf hrun
    have hs : List.scanl refreshStep p ((pr :: rest) ++ [last]) =
        p :: List.scanl refreshStep (refreshStep p pr) (rest ++ [last]) := rfl
    rw [hs]
    apply List.chain'_cons'.mpr
    constructor
    · intro y hy
      rw [scanl_head] at hy
      have hy' : y = refreshStep p pr := by
        have := hy
        simp only [Option.mem_def, Option.some.injEq] at this
        exact this.symm
      subst hy'
      exact ⟨c, pct T (probeSize pr), hpc, hstep.2.2.2.2, hhead pr rfl⟩
    · apply ih (refreshStep p pr) T (pct T (probeSize pr)) last hstep.1 hstep.2.1
        hstep.2.2.1 hT (by rw [hstep.2.2.2.1]; exact hout) hstep.2.2.2.2
        (pct_le_100 hT (hall pr (by simp)).2.2.2)
        ?_ (fun q hq => hall q (by simp [hq])) (List.chain'_cons'.mp hchain).2
        hstop hinfo hclean
      intro pr' hh
      exact pct_mono hT ((List.chain'_cons'.mp hchain).1 pr' hh)

/-- C8 amended witness: sizes 30 then 60 against a total of 100, followed
by a clean completion, give a monotone percent trace. -/
theorem download_percent_monotone_witness :
    List.Chain' pctLe (List.scanl refreshStep opRun
      ([runProbe 1000 "30", runProbe 2000 "60"] ++ [stopProbe 3000 []])) := by
  apply download_percent_monotone [runProbe 1000 "30", runProbe 2000 "60"] opRun 100 0
    (stopProbe 3000 []) rfl rfl rfl (by norm_num) (by decide) rfl (by norm_num)
  · intro pr h
    have hp : pr = runProbe 1000 "30" := by
      simp only [List.head?_cons, Option.some.injEq] at h
      exact h.symm
    subst hp
    exact pct_nonneg (by norm_num) (by decide)
  · intro pr h
    fin_cases h <;> exact ⟨rfl, rfl, by decide, by decide⟩
  · rw [List.chain'_pair]
    decide
  · decide
  · rfl
  · decide
